import Mathlib

/-!
Shallow embedding of the `apify-meta` social-scraping engine.

Source files embedded here:
* `src/src/instagram.ts` (Impit-based Instagram scraper),
* `src/src/facebook.ts` (desktop/mbasic Facebook scraper),
* `src/unnamed/part_001` (proxy-retry Instagram scraper, `scrapeInstagramP1` below).

Strings are modelled as `List Char` (code points).  JavaScript numbers are
modelled exactly: integer results as `Nat`/`Int`, the float pipeline of
`parseCount` over `ℚ` (the decimal literals reachable there are exact).
JavaScript regular expressions are embedded as dedicated deterministic
scanners, one per pattern of the source; global `exec` loops become fuelled
scans over the character list.  Network calls are oracle inputs: a fetch is a
value of an outcome type supplied to the function, `Except` models thrown
exceptions, and `try`/`catch` blocks of the source become `match`es on the
`Except`.
-/

set_option maxRecDepth 20000

abbrev Str := List Char

/-- Whitespace class of JavaScript regular expressions (`\s`). -/
def isJsWs (c : Char) : Bool :=
  c = ' ' || c = '\t' || c = '\n' || c = '\r' || c = '\u000b' || c = '\u000c' ||
  c = '\u00a0' || c = '\u1680' || (('\u2000' : Char) ≤ c && c ≤ '\u200a') ||
  c = '\u2028' || c = '\u2029' || c = '\u202f' || c = '\u205f' || c = '\u3000' ||
  c = '\ufeff'

/-- Line terminators of JavaScript (the characters `.` does not match). -/
def isJsLineTerm (c : Char) : Bool :=
  c = '\n' || c = '\r' || c = '\u2028' || c = '\u2029'

/-- ASCII word character, for the `\b` assertion. -/
def isWordChar (c : Char) : Bool :=
  c.isAlpha || c.isDigit || c = '_'

/-- ASCII-lowercasing used to model case-insensitive (`/i`) literal matching. -/
def lowAscii (c : Char) : Char := c.toLower

/-- `String.prototype.trim()`: strip leading and trailing JS whitespace. -/
def jsTrim (s : Str) : Str :=
  ((s.dropWhile (fun c => isJsWs c)).reverse.dropWhile (fun c => isJsWs c)).reverse

/-- `replace(/\s/g, '')`. -/
def stripJsWs (s : Str) : Str := s.filter (fun c => !isJsWs c)

/-- Numeric value of a list of ASCII digits (the value `parseInt(·, 10)` gives). -/
def natOfDigits (s : Str) : Nat := s.foldl (fun n c => 10 * n + (c.toNat - 48)) 0

-- ---------------------------------------------------------------------------
-- Deterministic pattern scanners (one combinator per regex construct used)
-- ---------------------------------------------------------------------------

/-- Consume an exact literal; return the rest on success. -/
def eatLit : Str → Str → Option Str
  | [], s => some s
  | _ :: _, [] => none
  | p :: ps, c :: cs => if p = c then eatLit ps cs else none

/-- Consume a literal case-insensitively (models the `/i` flag on ASCII). -/
def eatLitCI : Str → Str → Option Str
  | [], s => some s
  | _ :: _, [] => none
  | p :: ps, c :: cs => if lowAscii p = lowAscii c then eatLitCI ps cs else none

/-- Consume `\s*` (greedy, never fails). -/
def eatWs (s : Str) : Str := s.dropWhile (fun c => isJsWs c)

/-- Consume `\s+`. -/
def eatWs1 : Str → Option Str
  | c :: cs => if isJsWs c then some (eatWs cs) else none
  | [] => none

/-- Greedy `p*`: split off the maximal prefix of class characters. -/
def munchClass (p : Char → Bool) : Str → Str × Str
  | [] => ([], [])
  | c :: cs =>
    if p c then
      let (tok, rest) := munchClass p cs
      (c :: tok, rest)
    else ([], c :: cs)

/-- Greedy `p+` (captures the matched prefix, fails when empty). -/
def eatClassPlus (p : Char → Bool) (s : Str) : Option (Str × Str) :=
  match munchClass p s with
  | ([], _) => none
  | (tok, rest) => some (tok, rest)

/-- Consume exactly `n` class characters (`p{n}` — a longer run may follow). -/
def eatClassN (p : Char → Bool) : Nat → Str → Option (Str × Str)
  | 0, s => some ([], s)
  | _ + 1, [] => none
  | n + 1, c :: cs =>
    if p c then (eatClassN p n cs).map (fun r => (c :: r.1, r.2)) else none

/--
Body of a JSON string literal: `((?:[^"\\]|\\.)*)"` after the opening quote.
Stops at the first unescaped `"` (which is consumed); `\\.` cannot cross a
line terminator, and a trailing lone backslash has no match.
-/
def eatJsonStr : Str → Option (Str × Str)
  | [] => none
  | '"' :: rest => some ([], rest)
  | '\\' :: c :: rest =>
    if isJsLineTerm c then none
    else (eatJsonStr rest).map (fun r => ('\\' :: c :: r.1, r.2))
  | ['\\'] => none
  | c :: rest => (eatJsonStr rest).map (fun r => (c :: r.1, r.2))

/--
Bounded variant `((?:[^"\\]|\\[\s\S])\x7b10,300\x7d)"` (facebook.ts): the
escape may cross line terminators, and the match only succeeds when the
number of repetitions up to the closing quote lies in `[10, 300]`.
-/
def eatJsonStrBounded (lo hi : Nat) : Str → Option (Str × Str) :=
  go 0
where
  go : Nat → Str → Option (Str × Str)
    | n, '"' :: rest => if lo ≤ n && n ≤ hi then some ([], rest) else none
    | n, '\\' :: c :: rest =>
      if n + 1 ≤ hi then (go (n + 1) rest).map (fun r => ('\\' :: c :: r.1, r.2))
      else none
    | _, ['\\'] => none
    | _, [] => none
    | n, c :: rest =>
      if n + 1 ≤ hi then (go (n + 1) rest).map (fun r => (c :: r.1, r.2))
      else none

/-- First match of `step` scanning left to right (JS `String.prototype.match`). -/
def firstMatch (step : Str → Option α) : Str → Option α
  | [] => none
  | c :: rest =>
    match step (c :: rest) with
    | some a => some a
    | none => firstMatch step rest

/--
All matches of a global (`/g`) pattern, with their start positions, scanning
from the left and resuming after each match (the `exec` loop of the source).
The fuel is the string length; every pattern used consumes at least one
character per match.
-/
def gmatchesAux (step : Str → Option (α × Str)) : Nat → Nat → Str → List (Nat × α)
  | 0, _, _ => []
  | _, _, [] => []
  | fuel + 1, pos, c :: rest =>
    match step (c :: rest) with
    | some (a, rest') =>
      (pos, a) :: gmatchesAux step fuel (pos + ((c :: rest).length - rest'.length)) rest'
    | none => gmatchesAux step fuel (pos + 1) rest

def gmatches (step : Str → Option (α × Str)) (s : Str) : List (Nat × α) :=
  gmatchesAux step s.length 0 s

/-- `html.slice(start, end)` for already-clamped bounds. -/
def jsSlice (s : Str) (start stop : Nat) : Str := (s.drop start).take (stop - start)

/-- `text.includes(sub)` (substring test). -/
def jsIncludes (sub : Str) : Str → Bool
  | [] => sub = []
  | c :: rest => (eatLit sub (c :: rest)).isSome || jsIncludes sub rest

-- ---------------------------------------------------------------------------
-- Count-pattern pieces (instagram.ts / facebook.ts `parseCount`)
-- ---------------------------------------------------------------------------

/-- Character class `[\d,.]`. -/
def isNumTok (c : Char) : Bool := c.isDigit || c = ',' || c = '.'

/-- Suffix class `[KkMm]`. -/
def isMagSuffix (c : Char) : Bool := c = 'K' || c = 'k' || c = 'M' || c = 'm'

/--
Match `([\d,.]+)\s*([KkMm])?` at the current position: the captured numeric
token and the optional magnitude suffix.
-/
def countStep (s : Str) : Option (Str × Option Char) :=
  match eatClassPlus isNumTok s with
  | none => none
  | some (tok, rest) =>
    match eatWs rest with
    | c :: _ => if isMagSuffix c then some (tok, some c) else some (tok, none)
    | [] => some (tok, none)

/-- Does the string contain `sep` followed by (at least) three digits? -/
def hasSepThen3 (sep : Char) : Str → Bool
  | c :: c1 :: c2 :: c3 :: rest =>
    (c = sep && c1.isDigit && c2.isDigit && c3.isDigit) ||
      hasSepThen3 sep (c1 :: c2 :: c3 :: rest)
  | _ => false

/-- `replace(/sep/g, '')`. -/
def removeAllChar (sep : Char) (s : Str) : Str := s.filter (fun c => c ≠ sep)

/-- `replace(',', '.')` — only the first occurrence. -/
def replaceFirstChar (a b : Char) : Str → Str
  | [] => []
  | c :: cs => if c = a then b :: cs else c :: replaceFirstChar a b cs

/-- Split off a maximal digit prefix. -/
def munchDigits (s : Str) : Str × Str := munchClass Char.isDigit s

/--
`parseFloat` on the strings reachable here (digits, `.`, `,`): skip leading
whitespace, optional sign, integer digits, optional `.` plus fraction digits,
stop at the first other character; `none` models `NaN` (no digit consumed).
Exponents never occur in the reachable inputs and are not modelled.
-/
def pfSign : Str → ℚ × Str
  | '-' :: r => (-1, r)
  | '+' :: r => (1, r)
  | r => (1, r)

/-- The optional fraction part: `.` followed by digits. -/
def pfFrac : Str → Str × Str
  | '.' :: r => munchDigits r
  | s => ([], s)

def parseFloatQ (s : Str) : Option ℚ :=
  let s1 := s.dropWhile (fun c => isJsWs c)
  let (sign, s2) := pfSign s1
  let (ip, s3) := munchDigits s2
  let (fp, _) := pfFrac s3
  if ip = [] && fp = [] then none
  else some (sign * ((natOfDigits ip : ℚ) + (natOfDigits fp : ℚ) / 10 ^ fp.length))

/-- `Math.round`: half-up rounding (toward `+∞`). -/
def jsRound (q : ℚ) : ℤ := ⌊q + 1 / 2⌋

/--
`parseCount(text)` of instagram.ts (lines 418-440), identical in facebook.ts
(501-524) and part_001 (423-446): trim and strip whitespace, match
`([\d,.]+)\s*([KkMm])?`, drop commas (resp. periods) when one is followed by
three digits, otherwise turn the first comma into a decimal point, `parseFloat`,
apply the K/M multiplier, `Math.round`.
-/
def parseCount (text : Str) : Option ℤ :=
  let cleaned := stripJsWs (jsTrim text)
  match firstMatch countStep cleaned with
  | none => none
  | some (tok, suffix) =>
    let numStr :=
      if hasSepThen3 ',' tok then removeAllChar ',' tok
      else if hasSepThen3 '.' tok then removeAllChar '.' tok
      else replaceFirstChar ',' '.' tok
    match parseFloatQ numStr with
    | none => none
    | some q =>
      let mult := suffix.map Char.toUpper
      let q := if mult = some 'K' then q * 1000 else q
      let q := if mult = some 'M' then q * 1000000 else q
      some (jsRound q)

-- ---------------------------------------------------------------------------
-- `decodeJsonEscapes` / `decodeHtmlEntities`
-- ---------------------------------------------------------------------------

/-- Hexadecimal digit class `[0-9a-fA-F]`. -/
def isHexDigit (c : Char) : Bool :=
  c.isDigit || ('a' ≤ c && c ≤ 'f') || ('A' ≤ c && c ≤ 'F')

/-- Value of one hexadecimal digit. -/
def hexDigitVal (c : Char) : Nat :=
  if c.isDigit then c.toNat - 48
  else if 'a' ≤ c && c ≤ 'f' then c.toNat - 87
  else c.toNat - 55

/-- Value of a list of hexadecimal digits (`parseInt(·, 16)`). -/
def hexVal (s : Str) : Nat := s.foldl (fun n c => 16 * n + hexDigitVal c) 0

/--
`String.fromCodePoint`: throws `RangeError` above `0x10FFFF`.  (Lone
surrogates, which JS would keep, are unrepresentable in `Char` and collapse
to NUL; no claim depends on them.)
-/
def fromCodePointE (n : Nat) : Except String Char :=
  if n < 1114112 then .ok (Char.ofNat n) else .error ("Invalid code point " ++ toString n)

/-- Global replacement of the two-character sequence `a b` by `r`. -/
def replaceSeq2 (a b : Char) (r : Str) : Str → Str
  | x :: y :: rest =>
    if x = a && y = b then r ++ replaceSeq2 a b r rest
    else x :: replaceSeq2 a b r (y :: rest)
  | s => s

/-- Global replacement of `\uXXXX` escapes; the guarded `fromCodePoint` of the
source never throws here since `XXXX ≤ 0xFFFF`.  Fuelled by the length. -/
def replaceUnicodeEscAux : Nat → Str → Str
  | 0, s => s
  | _, [] => []
  | fuel + 1, '\\' :: 'u' :: rest =>
    (match eatClassN isHexDigit 4 rest with
     | some (hex, rest') => Char.ofNat (hexVal hex) :: replaceUnicodeEscAux fuel rest'
     | none => '\\' :: replaceUnicodeEscAux fuel ('u' :: rest))
  | fuel + 1, c :: rest => c :: replaceUnicodeEscAux fuel rest

def replaceUnicodeEsc (s : Str) : Str := replaceUnicodeEscAux s.length s

/--
`decodeJsonEscapes` (instagram.ts 405-416, facebook.ts 488-499, part_001
410-421): sequential global replacements of `\n \r \t \\ \" \/` and `\uXXXX`.
-/
def decodeJsonEscapes (text : Str) : Str :=
  replaceUnicodeEsc
    (replaceSeq2 '\\' '/' ['/']
      (replaceSeq2 '\\' '"' ['"']
        (replaceSeq2 '\\' '\\' ['\\']
          (replaceSeq2 '\\' 't' [' ']
            (replaceSeq2 '\\' 'r' []
              (replaceSeq2 '\\' 'n' [' '] text))))))

/-- Global replacement of `&#x([0-9a-fA-F]+);` — may throw via `fromCodePoint`. -/
def decodeHexEntitiesAux : Nat → Str → Except String Str
  | 0, s => pure s
  | _, [] => pure []
  | fuel + 1, '&' :: '#' :: 'x' :: rest =>
    (match eatClassPlus isHexDigit rest with
     | some (hex, ';' :: rest') => do
       let c ← fromCodePointE (hexVal hex)
       let t ← decodeHexEntitiesAux fuel rest'
       pure (c :: t)
     | _ => do
       let t ← decodeHexEntitiesAux fuel ('#' :: 'x' :: rest)
       pure ('&' :: t))
  | fuel + 1, c :: rest => do
    let t ← decodeHexEntitiesAux fuel rest
    pure (c :: t)

def decodeHexEntities (s : Str) : Except String Str := decodeHexEntitiesAux s.length s

/-- Global replacement of `&#(\d+);` — may throw via `fromCodePoint`. -/
def decodeDecEntitiesAux : Nat → Str → Except String Str
  | 0, s => pure s
  | _, [] => pure []
  | fuel + 1, '&' :: '#' :: rest =>
    (match eatClassPlus Char.isDigit rest with
     | some (ds, ';' :: rest') => do
       let c ← fromCodePointE (natOfDigits ds)
       let t ← decodeDecEntitiesAux fuel rest'
       pure (c :: t)
     | _ => do
       let t ← decodeDecEntitiesAux fuel ('#' :: rest)
       pure ('&' :: t))
  | fuel + 1, c :: rest => do
    let t ← decodeDecEntitiesAux fuel rest
    pure (c :: t)

def decodeDecEntities (s : Str) : Except String Str := decodeDecEntitiesAux s.length s

/-- Global literal replacement (`replace(/pat/g, r)` for a plain pattern). -/
def replaceLitAux (pat r : Str) : Nat → Str → Str
  | 0, s => s
  | _, [] => []
  | fuel + 1, c :: rest =>
    match eatLit pat (c :: rest) with
    | some rest' => r ++ replaceLitAux pat r fuel rest'
    | none => c :: replaceLitAux pat r fuel rest

def replaceLit (pat r s : Str) : Str := replaceLitAux pat r s.length s

/--
`decodeHtmlEntities` (instagram.ts 392-403, facebook.ts 474-485, part_001
396-407): numeric character references first (these may throw a `RangeError`
— the `fromCodePoint` call here is *not* wrapped in a `try`), then named
entities, then the narrow-space class `[   ]`.
-/
def decodeHtmlEntities (text : Str) : Except String Str := do
  let s ← decodeHexEntities text
  let s ← decodeDecEntities s
  let s := replaceLit "&amp;".data "&".data s
  let s := replaceLit "&lt;".data "<".data s
  let s := replaceLit "&gt;".data ">".data s
  let s := replaceLit "&quot;".data "\"".data s
  let s := replaceLit "&apos;".data "'".data s
  let s := replaceLit "&nbsp;".data " ".data s
  pure (s.map (fun c => if c = ' ' || c = ' ' || c = ' ' then ' ' else c))

-- ---------------------------------------------------------------------------
-- `new Date(ts * 1000).toISOString().split('T')[0]`
-- ---------------------------------------------------------------------------

/-- Left-pad a digit string with zeros. -/
def padZeros (w : Nat) (s : Str) : Str := List.replicate (w - s.length) '0' ++ s

/-- Decimal digits of a natural number. -/
def natDigits (n : Nat) : Str := Nat.toDigits 10 n

/-- Date part of `toISOString` for an epoch-seconds value (civil-from-days). -/
def isoDate (ts : Nat) : Str :=
  let days := ts / 86400
  let z := days + 719468
  let era := z / 146097
  let doe := z % 146097
  let yoe := (doe - doe / 1460 + doe / 36524 - doe / 146096) / 365
  let doy := doe - (365 * yoe + yoe / 4 - yoe / 100)
  let mp := (5 * doy + 2) / 153
  let d := doy - (153 * mp + 2) / 5 + 1
  let m := if mp < 10 then mp + 3 else mp - 9
  let y := yoe + era * 400 + (if m ≤ 2 then 1 else 0)
  padZeros 4 (natDigits y) ++ ['-'] ++ padZeros 2 (natDigits m) ++ ['-'] ++ padZeros 2 (natDigits d)

/--
`new Date(ts * 1000).toISOString()`: JS `Date` is valid only up to
`8.64e15` milliseconds; beyond that `toISOString` throws a `RangeError`.
-/
def isoDateE (ts : Nat) : Except String Str :=
  if ts ≤ 8640000000000 then .ok (isoDate ts) else .error "Invalid time value"

-- ---------------------------------------------------------------------------
-- Result records (types.ts)
-- ---------------------------------------------------------------------------

/-- `SocialPost` of types.ts. -/
structure SocialPost where
  url : Str
  caption_snippet : Str
  likes : Option ℤ
  comments : Option ℤ
  posted_at : Option Str
  media_type : Option Str
deriving DecidableEq, Repr

/-- The `ProfileResult` slice of `CompetitorSocialResult` (types.ts). -/
structure ProfileResult where
  followers : Option ℤ
  following : Option ℤ
  posts_count : Option ℤ
  bio : Option Str
  recent_posts : List SocialPost
  error : Option Str
deriving DecidableEq, Repr

/-- All-null result carrying an error message (the catch-all shape). -/
def errResult (msg : Str) : ProfileResult :=
  { followers := none, following := none, posts_count := none, bio := none,
    recent_posts := [], error := some msg }

-- ---------------------------------------------------------------------------
-- Shared JSON-field scanners
-- ---------------------------------------------------------------------------

/-- `"outer"\s*:\s*\x7b\s*"inner"\s*:\s*(\d+)` — the nested count patterns. -/
def jsonNestedNumStep (outerKey innerKey : String) (s : Str) : Option (Str × Str) := do
  let s ← eatLit ('"' :: (outerKey.data ++ ['"'])) s
  let s := eatWs s
  let s ← eatLit [':'] s
  let s := eatWs s
  let s ← eatLit ['\x7b'] s
  let s := eatWs s
  let s ← eatLit ('"' :: (innerKey.data ++ ['"'])) s
  let s := eatWs s
  let s ← eatLit [':'] s
  let s := eatWs s
  eatClassPlus Char.isDigit s

/-- `"key"\s*:\s*(\d+)`. -/
def jsonNumStep (key : String) (s : Str) : Option (Str × Str) := do
  let s ← eatLit ('"' :: (key.data ++ ['"'])) s
  let s := eatWs s
  let s ← eatLit [':'] s
  let s := eatWs s
  eatClassPlus Char.isDigit s

/-- Case-insensitive `"key"\s*:\s*(\d+)` (the `/i` follower-count patterns). -/
def jsonNumStepCI (key : String) (s : Str) : Option (Str × Str) := do
  let s ← eatLitCI ('"' :: (key.data ++ ['"'])) s
  let s := eatWs s
  let s ← eatLit [':'] s
  let s := eatWs s
  eatClassPlus Char.isDigit s

/-- `"key"\s*:\s*(\d\x7b10\x7d)` — the `creation_time` anchor. -/
def jsonNum10Step (key : String) (s : Str) : Option (Str × Str) := do
  let s ← eatLit ('"' :: (key.data ++ ['"'])) s
  let s := eatWs s
  let s ← eatLit [':'] s
  let s := eatWs s
  eatClassN Char.isDigit 10 s

/-- `"key"\s*:\s*"((?:[^"\\]|\\.)*)"`. -/
def jsonStrStep (key : String) (s : Str) : Option (Str × Str) := do
  let s ← eatLit ('"' :: (key.data ++ ['"'])) s
  let s := eatWs s
  let s ← eatLit [':'] s
  let s := eatWs s
  let s ← eatLit ['"'] s
  eatJsonStr s

/-- `"is_video"\s*:\s*(true|false)`. -/
def isVideoStep (s : Str) : Option (Str × Str) := do
  let s ← eatLit "\"is_video\"".data s
  let s := eatWs s
  let s ← eatLit [':'] s
  let s := eatWs s
  match eatLit "true".data s with
  | some r => pure ("true".data, r)
  | none => (eatLit "false".data s).map (fun r => ("false".data, r))

/-- First match, keeping only the capture. -/
def firstCap (step : Str → Option (α × Str)) (s : Str) : Option α :=
  (firstMatch step s).map (·.1)

-- ---------------------------------------------------------------------------
-- Instagram post extraction from embedded JSON
-- (instagram.ts `extractPostsFromJson` 306-343 = part_001 `extractPostsFromHtml`)
-- ---------------------------------------------------------------------------

/-- Shortcode character class `[A-Za-z0-9_-]`. -/
def isShortcodeChar (c : Char) : Bool := c.isAlpha || c.isDigit || c = '_' || c = '-'

/-- `"shortcode"\s*:\s*"([A-Za-z0-9_-]+)"` (global anchor pattern). -/
def shortcodeStep (s : Str) : Option (Str × Str) := do
  let s ← eatLit "\"shortcode\"".data s
  let s := eatWs s
  let s ← eatLit [':'] s
  let s := eatWs s
  let s ← eatLit ['"'] s
  let (sc, s) ← eatClassPlus isShortcodeChar s
  let s ← eatLit ['"'] s
  pure (sc, s)

/-- All shortcode anchors of a document, with their positions. -/
def shortcodeMatches (html : Str) : List (Nat × Str) := gmatches shortcodeStep html

/-- Window `[pos - 500, pos + 3000)` around an anchor. -/
def igVicinity (html : Str) (pos : Nat) : Str :=
  jsSlice html (pos - 500) (min html.length (pos + 3000))

/--
Build one post record from the window around a shortcode anchor (the loop
body of `extractPostsFromJson`).  Throws only when the window's
`taken_at_timestamp` exceeds the JS `Date` range.
-/
def mkIgPost (html : Str) (pos : Nat) (sc : Str) : Except String SocialPost := do
  let vicinity := igVicinity html pos
  let likes :=
    match firstCap (jsonNestedNumStep "edge_liked_by" "count") vicinity with
    | some v => some v
    | none => firstCap (jsonNestedNumStep "edge_media_preview_like" "count") vicinity
  let comments := firstCap (jsonNestedNumStep "edge_media_to_comment" "count") vicinity
  let timestamp := firstCap (jsonNumStep "taken_at_timestamp") vicinity
  let isVideo := firstCap isVideoStep vicinity
  let captionText := firstCap (jsonStrStep "text") vicinity
  let posted ← match timestamp with
    | none => pure none
    | some ds => (isoDateE (natOfDigits ds)).map some
  pure {
    url := "https://www.instagram.com/p/".data ++ sc ++ "/".data
    caption_snippet :=
      match captionText with
      | some t => (decodeJsonEscapes t).take 300
      | none => []
    likes := likes.map (fun d => (natOfDigits d : ℤ))
    comments := comments.map (fun d => (natOfDigits d : ℤ))
    posted_at := posted
    media_type := some (if isVideo = some "true".data then "video".data else "image".data) }

/-- The `while`/`exec` loop over the anchors, with the `seen` set and limit. -/
def igPostsGo (html : Str) (limit : Nat) :
    List (Nat × Str) → List Str → Nat → Except String (List SocialPost)
  | [], _, _ => pure []
  | (pos, sc) :: ms, seen, cnt =>
    if limit ≤ cnt then pure []
    else if sc ∈ seen then igPostsGo html limit ms seen cnt
    else do
      let p ← mkIgPost html pos sc
      let ps ← igPostsGo html limit ms (sc :: seen) (cnt + 1)
      pure (p :: ps)

/-- `extractPostsFromJson(html, limit)` (instagram.ts 306-343). -/
def extractPostsFromJson (html : Str) (limit : Nat) : Except String (List SocialPost) :=
  igPostsGo html limit (shortcodeMatches html) [] 0

-- ---------------------------------------------------------------------------
-- Instagram profile extraction (meta tags and embedded JSON)
-- ---------------------------------------------------------------------------

/-- The quadruple the profile helpers return. -/
structure ProfileQuad where
  followers : Option ℤ
  following : Option ℤ
  postsCount : Option ℤ
  bio : Option Str
deriving DecidableEq, Repr

/-- `<meta\s+ATTR\s+content="([^"]+)"` (forward order), case-insensitive. -/
def metaFwdStep (attr : String) (s : Str) : Option (Str × Str) := do
  let s ← eatLitCI "<meta".data s
  let s ← eatWs1 s
  let s ← eatLitCI attr.data s
  let s ← eatWs1 s
  let s ← eatLitCI "content=\"".data s
  let (cap, s) ← eatClassPlus (fun c => c ≠ '"') s
  let s ← eatLit ['"'] s
  pure (cap, s)

/-- `<meta\s+content="([^"]+)"\s+ATTR` (reversed order), case-insensitive. -/
def metaRevStep (attr : String) (s : Str) : Option (Str × Str) := do
  let s ← eatLitCI "<meta".data s
  let s ← eatWs1 s
  let s ← eatLitCI "content=\"".data s
  let (cap, s) ← eatClassPlus (fun c => c ≠ '"') s
  let s ← eatLit ['"'] s
  let s ← eatWs1 s
  let s ← eatLitCI attr.data s
  pure (cap, s)

/-- The combined `<meta\s+(?:fwd|rev)` alternation used by instagram.ts. -/
def metaCombinedStep (attr : String) (s : Str) : Option (Str × Str) :=
  match metaFwdStep attr s with
  | some r => some r
  | none => metaRevStep attr s

/-- Keyword position: the characters allowed there (to model `[aą]` etc.). -/
abbrev KwWord := List (List Char)

/-- Plain word, one allowed character per position. -/
def kw (x : String) : KwWord := x.data.map (fun c => [c])

/-- Consume a keyword case-insensitively. -/
def eatWord : KwWord → Str → Option Str
  | [], s => some s
  | cls :: ps, c :: cs =>
    if cls.any (fun p => lowAscii p = lowAscii c) then eatWord ps cs else none
  | _ :: _, [] => none

/-- Try keyword alternatives in order. -/
def eatAlts (alts : List KwWord) (s : Str) : Option Str :=
  match alts with
  | [] => none
  | a :: rest =>
    match eatWord a s with
    | some r => some r
    | none => eatAlts rest s

/-- Like `eatAlts`, but each alternative must end at a `\b` boundary. -/
def eatAltsB (alts : List KwWord) (s : Str) : Option Str :=
  match alts with
  | [] => none
  | a :: rest =>
    match eatWord a s with
    | some r =>
      (match r with
       | [] => some r
       | c :: _ => if isWordChar c then eatAltsB rest s else some r)
    | none => eatAltsB rest s

/--
`([\d,.]+[KkMm]?)\s*KEYWORDS` — the numeric token with the optional magnitude
suffix inside the capture.  The optional suffix backtracks when the keywords
fail right after it.
-/
def numKwStep (kwFun : Str → Option Str) (s : Str) : Option (Str × Str) := do
  let (tok, s1) ← eatClassPlus isNumTok s
  match s1 with
  | c :: rest =>
    if isMagSuffix c then
      match kwFun (eatWs rest) with
      | some r => some (tok ++ [c], r)
      | none => (kwFun (eatWs s1)).map (fun r => (tok, r))
    else (kwFun (eatWs s1)).map (fun r => (tok, r))
  | [] => (kwFun [] ).map (fun r => (tok, r))

/-- `(?:Followers|obserwuj[aą]cych|follower)/i`. -/
def igFollowersKw : Str → Option Str :=
  eatAlts [kw "Followers", kw "obserwuj" ++ [['a', 'ą']] ++ kw "cych", kw "follower"]

/-- `(?:Following|obserwowanych)/i`. -/
def igFollowingKw : Str → Option Str :=
  eatAlts [kw "Following", kw "obserwowanych"]

/-- `(?:Posts|post[oó]w|post)\b/i`. -/
def igPostsKw : Str → Option Str :=
  eatAltsB [kw "Posts", kw "post" ++ [['o', 'ó']] ++ kw "w", kw "post"]

/-- The dash class `[-–—]` of the bio pattern. -/
def isBioDash (c : Char) : Bool := c = '-' || c = '–' || c = '—'

/--
Capture of `\s*(.+)$` after the dash: greedy whitespace skip, then the rest of
the input, which must be non-empty and free of line terminators.  When the
rest is only whitespace, the greedy `\s*` backtracks one character.
-/
def bioTail (t : Str) : Option Str :=
  let r := t.dropWhile (fun c => isJsWs c)
  if r.isEmpty then
    match t.getLast? with
    | none => none
    | some c => if isJsLineTerm c then none else some [c]
  else if r.any (fun c => isJsLineTerm c) then none else some r

/-- `[-–—]\s*(.+)$` at the current position. -/
def igBioStep : Str → Option Str
  | c :: rest => if isBioDash c then bioTail rest else none
  | [] => none

/-- `extractProfileFromMetaTags(html)` (instagram.ts 349-370 = part_001 260-282). -/
def extractProfileFromMetaTags (html : Str) : Except String ProfileQuad := do
  let ogMatch := firstCap (metaCombinedStep "property=\"og:description\"") html
  let descMatch := firstCap (metaCombinedStep "name=\"description\"") html
  let desc :=
    match ogMatch with
    | some d => some d
    | none => descMatch
  match desc with
  | none => pure { followers := none, following := none, postsCount := none, bio := none }
  | some d => do
    let decoded ← decodeHtmlEntities d
    let followersMatch := firstCap (numKwStep igFollowersKw) decoded
    let followingMatch := firstCap (numKwStep igFollowingKw) decoded
    let postsMatch := firstCap (numKwStep igPostsKw) decoded
    let bioMatch := firstMatch igBioStep decoded
    pure {
      followers := followersMatch.bind parseCount
      following := followingMatch.bind parseCount
      postsCount := postsMatch.bind parseCount
      bio := bioMatch.map (fun b => (jsTrim b).take 300) }

/-- `extractProfileFromJson(html)` (instagram.ts 372-386 = part_001 288-302). -/
def extractProfileFromJson (html : Str) : ProfileQuad :=
  let followedBy := firstCap (jsonNestedNumStep "edge_followed_by" "count") html
  let follow := firstCap (jsonNestedNumStep "edge_follow" "count") html
  let mediaCount := firstCap (jsonNestedNumStep "edge_owner_to_timeline_media" "count") html
  let bio := firstCap (jsonStrStep "biography") html
  { followers := followedBy.map (fun d => (natOfDigits d : ℤ))
    following := follow.map (fun d => (natOfDigits d : ℤ))
    postsCount := mediaCount.map (fun d => (natOfDigits d : ℤ))
    bio := bio.map (fun b => (decodeJsonEscapes b).take 300) }

/--
`extractFromHtml(html, postsLimit)` (instagram.ts 281-300).  The `Except`
propagates the unguarded `fromCodePoint`/`toISOString` range errors, in the
evaluation order of the source (meta tags, then json profile, then posts).
-/
def extractFromHtml (html : Str) (postsLimit : Nat) : Except String ProfileResult := do
  let metaProfile ← extractProfileFromMetaTags html
  let jsonProfile := extractProfileFromJson html
  let followers :=
    match jsonProfile.followers with
    | some v => some v
    | none => metaProfile.followers
  let following :=
    match jsonProfile.following with
    | some v => some v
    | none => metaProfile.following
  let postsCount :=
    match jsonProfile.postsCount with
    | some v => some v
    | none => metaProfile.postsCount
  let bio :=
    match jsonProfile.bio with
    | some v => some v
    | none => metaProfile.bio
  let posts ← extractPostsFromJson html postsLimit
  pure {
    followers := followers
    following := following
    posts_count := postsCount
    bio := bio
    recent_posts := posts
    error :=
      if posts = [] && followers = none then
        some "Could not extract data from profile page".data
      else none }

-- ---------------------------------------------------------------------------
-- instagram.ts cascade model (Impit version, lines 20-55)
-- ---------------------------------------------------------------------------

instance {ε α : Type} [DecidableEq ε] [DecidableEq α] : DecidableEq (Except ε α) := fun a b =>
  match a, b with
  | .ok x, .ok y =>
    if h : x = y then isTrue (by rw [h]) else isFalse (fun hc => h (Except.ok.inj hc))
  | .error x, .error y =>
    if h : x = y then isTrue (by rw [h]) else isFalse (fun hc => h (Except.error.inj hc))
  | .ok _, .error _ => isFalse (fun hc => Except.noConfusion hc)
  | .error _, .ok _ => isFalse (fun hc => Except.noConfusion hc)

/-- `handle.replace(/^@/, '')`: strip exactly one leading `@`. -/
def stripLeadingAt : Str → Str
  | '@' :: t => t
  | s => s

/--
A post node of the REST-API payload, with exactly the fields tryRestApi
reads (the payload itself is free oracle input).  `taken_at_timestamp` is
modelled as a natural number (pre-1970 payloads are out of scope).
-/
structure IgApiNode where
  shortcode : Str
  caption_edges : List (Option Str)
  edge_liked_by : Option ℤ
  edge_media_preview_like : Option ℤ
  like_count : Option ℤ
  edge_media_to_comment : Option ℤ
  comment_count : Option ℤ
  taken_at_timestamp : Option Nat
  is_video : Option Bool
deriving DecidableEq, Repr

/-- Timeline container: `edge_owner_to_timeline_media`. -/
structure IgTimeline where
  count : Option ℤ
  edges : List (Option IgApiNode)
deriving DecidableEq, Repr

/-- The user object of the REST-API payload, as read by instagram.ts. -/
structure IgApiUser where
  edge_followed_by : Option ℤ
  follower_count : Option ℤ
  edge_follow : Option ℤ
  following_count : Option ℤ
  timeline : Option IgTimeline
  media_count : Option ℤ
  biography : Option Str
deriving DecidableEq, Repr

/-- Outcome of the bootstrap fetch: status, `set-cookie` headers, body text. -/
structure BootResp where
  status : Nat
  setCookies : List Str
  bodyE : Except String Str
deriving DecidableEq, Repr

/-- Outcome of the REST-API fetch: status and the `resp.json()` result
(`json?.data?.user ?? json?.user` resolved to the user object when present). -/
structure ApiResp where
  status : Nat
  jsonE : Except String (Option IgApiUser)
deriving DecidableEq, Repr

/-- Oracle for one instagram.ts run: the two fetches it can issue. -/
structure IgOracle where
  boot : Except String BootResp
  api : Except String ApiResp
deriving DecidableEq, Repr

/-- `extractCookies(headers)` (instagram.ts 112-172): keep the part of each
`set-cookie` value before `;`, drop empties, join with `; `. -/
def extractCookies (setCookies : List Str) : Str :=
  List.intercalate "; ".data
    (setCookies.filterMap (fun c =>
      let nv := c.takeWhile (fun x => x ≠ ';')
      if nv.isEmpty then none else some nv))

/-- `bootstrapSession` (instagram.ts 61-106): cookies and, on HTTP 200, the
body; any throw inside the `try` yields `('', null)`. -/
def bootstrapSession (boot : Except String BootResp) : Str × Option Str :=
  match boot with
  | .error _ => ([], none)
  | .ok resp =>
    let cookies := extractCookies resp.setCookies
    if resp.status = 200 then
      match resp.bodyE with
      | .error _ => ([], none)
      | .ok html => (cookies, some html)
    else (cookies, none)

/-- Post list built by tryRestApi from `edges.slice(0, postsLimit)`; the
`toISOString` call may throw (caught by tryRestApi's `catch`). -/
def buildIgApiPosts : List (Option IgApiNode) → Except String (List SocialPost)
  | [] => pure []
  | none :: rest => buildIgApiPosts rest
  | some node :: rest => do
    let posted ← match node.taken_at_timestamp with
      | none => pure none
      | some 0 => pure none
      | some t => (isoDateE t).map some
    let ps ← buildIgApiPosts rest
    let caption := ((node.caption_edges.head?.getD none).getD [])
    pure ({
      url := "https://www.instagram.com/p/".data ++ node.shortcode ++ "/".data
      caption_snippet := caption.take 300
      likes :=
        match node.edge_liked_by with
        | some v => some v
        | none =>
          match node.edge_media_preview_like with
          | some v => some v
          | none => node.like_count
      comments :=
        match node.edge_media_to_comment with
        | some v => some v
        | none => node.comment_count
      posted_at := posted
      media_type := some (if node.is_video = some true then "video".data else "image".data)
      } :: ps)

/-- `tryRestApi` (instagram.ts 178-275): `null` on 429, non-200, missing user,
or any thrown error; otherwise the structured result with `error: null`. -/
def tryRestApi (postsLimit : Nat) (api : Except String ApiResp) : Option ProfileResult :=
  match api with
  | .error _ => none
  | .ok resp =>
    if resp.status = 429 then none
    else if resp.status ≠ 200 then none
    else
      match resp.jsonE with
      | .error _ => none
      | .ok none => none
      | .ok (some user) =>
        match buildIgApiPosts ((user.timeline.map (·.edges)).getD [] |>.take postsLimit) with
        | .error _ => none
        | .ok posts =>
          some {
            followers :=
              match user.edge_followed_by with
              | some v => some v
              | none => user.follower_count
            following :=
              match user.edge_follow with
              | some v => some v
              | none => user.following_count
            posts_count :=
              match user.timeline.bind (·.count) with
              | some v => some v
              | none => user.media_count
            bio := (user.biography.map (fun b => b.take 300))
            recent_posts := posts
            error := none }

/-- Requests issued and strategies exercised during one instagram.ts run. -/
structure IgTrace where
  bootUrl : Str
  apiUrl : Option Str
  htmlParsed : Bool
deriving DecidableEq, Repr

def igAllFailed : ProfileResult := errResult "All Instagram strategies failed".data

/-- Step 3 of the cascade: HTML extraction from the bootstrap body. -/
def igStep3 (bootUrl : Str) (apiUrl : Option Str) (html : Option Str) (postsLimit : Nat) :
    Except String ProfileResult × IgTrace :=
  match html with
  | some h =>
    (match extractFromHtml h postsLimit with
     | .error e => (.error e, ⟨bootUrl, apiUrl, true⟩)
     | .ok webResult =>
       if webResult.recent_posts ≠ [] || webResult.followers ≠ none then
         (.ok webResult, ⟨bootUrl, apiUrl, true⟩)
       else (.ok igAllFailed, ⟨bootUrl, apiUrl, true⟩))
  | none => (.ok igAllFailed, ⟨bootUrl, apiUrl, false⟩)

/--
`scrapeInstagram` (instagram.ts 20-55).  The result is `Except`-valued: a
`RangeError` escaping `extractFromHtml` (step 3 runs outside any `try`)
surfaces as `.error`.  (`encodeURIComponent` is modelled as the identity on
the handle; the `Impit` constructor is assumed not to throw.)
-/
def scrapeInstagram (handle : Str) (postsLimit : Nat) (o : IgOracle) :
    Except String ProfileResult × IgTrace :=
  let cleanHandle := stripLeadingAt handle
  let bootUrl := "https://www.instagram.com/".data ++ cleanHandle ++ "/".data
  let (cookies, html) := bootstrapSession o.boot
  let apiUrl :=
    if cookies ≠ [] then
      some ("https://i.instagram.com/api/v1/users/web_profile_info/?username=".data ++ cleanHandle)
    else none
  let apiResult := if cookies ≠ [] then tryRestApi postsLimit o.api else none
  match apiResult with
  | some r =>
    if r.recent_posts ≠ [] then (.ok r, ⟨bootUrl, apiUrl, false⟩)
    else igStep3 bootUrl apiUrl html postsLimit
  | none => igStep3 bootUrl apiUrl html postsLimit

-- ---------------------------------------------------------------------------
-- part_001 cascade model (`scrapeInstagram` of src/unnamed/part_001, 17-60)
-- ---------------------------------------------------------------------------

/-- `response.ok`: HTTP status in `[200, 300)`. -/
def respOk (status : Nat) : Bool := 200 ≤ status && status < 300

/-- Post node of the typed `InstagramApiResponse` interface of part_001. -/
structure P1Node where
  shortcode : Str
  caption_edges : List (Option Str)
  edge_liked_by : Option ℤ
  edge_media_preview_like : Option ℤ
  edge_media_to_comment : Option ℤ
  taken_at_timestamp : Option Nat
  is_video : Option Bool
deriving DecidableEq, Repr

/-- `edge_owner_to_timeline_media` of part_001 (`count` is not optional). -/
structure P1Timeline where
  count : ℤ
  edges : List (Option P1Node)
deriving DecidableEq, Repr

/-- The user object of part_001's API payload. -/
structure P1User where
  biography : Option Str
  edge_followed_by : Option ℤ
  edge_follow : Option ℤ
  timeline : Option P1Timeline
deriving DecidableEq, Repr

/-- Outcome of part_001's API fetch. -/
structure P1ApiResp where
  status : Nat
  jsonE : Except String (Option P1User)
deriving DecidableEq, Repr

/-- Outcome of part_001's web-page fetch. -/
structure P1WebResp where
  status : Nat
  bodyE : Except String Str
deriving DecidableEq, Repr

/-- Oracle for one part_001 run: both possible API attempts, the fresh-proxy
acquisition, and the web fetch. -/
structure P1Oracle where
  cookies1 : Option Str
  api1 : Except String P1ApiResp
  fresh : Option Str
  cookies2 : Option Str
  api2 : Except String P1ApiResp
  web : Except String P1WebResp
deriving DecidableEq, Repr

/-- Post list of part_001's `tryPrivateApi` (no `like_count`/`comment_count`
fallbacks, unlike instagram.ts). -/
def buildP1ApiPosts : List (Option P1Node) → Except String (List SocialPost)
  | [] => pure []
  | none :: rest => buildP1ApiPosts rest
  | some node :: rest => do
    let posted ← match node.taken_at_timestamp with
      | none => pure none
      | some 0 => pure none
      | some t => (isoDateE t).map some
    let ps ← buildP1ApiPosts rest
    let caption := ((node.caption_edges.head?.getD none).getD [])
    pure ({
      url := "https://www.instagram.com/p/".data ++ node.shortcode ++ "/".data
      caption_snippet := caption.take 300
      likes :=
        match node.edge_liked_by with
        | some v => some v
        | none => node.edge_media_preview_like
      comments := node.edge_media_to_comment
      posted_at := posted
      media_type := some (if node.is_video = some true then "video".data else "image".data)
      } :: ps)

/--
`tryPrivateApi` (part_001 66-147).  Always returns a result object: every
failure path is converted to an all-null record carrying the error string.
The session-cookie fetch result (`cookies`) only shapes request headers.
-/
def tryPrivateApi (postsLimit : Nat) (_cookies : Option Str)
    (fetch : Except String P1ApiResp) : ProfileResult :=
  match fetch with
  | .error m => errResult m.data
  | .ok resp =>
    if !respOk resp.status then errResult ("HTTP ".data ++ natDigits resp.status)
    else
      match resp.jsonE with
      | .error m => errResult m.data
      | .ok none => errResult "No user data in API response".data
      | .ok (some user) =>
        match buildP1ApiPosts (((user.timeline.map (·.edges)).getD []).take postsLimit) with
        | .error m => errResult m.data
        | .ok posts =>
          { followers := user.edge_followed_by
            following := user.edge_follow
            posts_count := user.timeline.map (·.count)
            bio := user.biography.map (fun b => b.take 300)
            recent_posts := posts
            error := none }

/-- `tryWebPage` (part_001 153-205): posts from embedded JSON (the shared
`extractPostsFromJson`), then meta-tag profile, then JSON profile. -/
def tryWebPage (postsLimit : Nat) (fetch : Except String P1WebResp) : ProfileResult :=
  match fetch with
  | .error m => errResult ("Web: ".data ++ m.data)
  | .ok resp =>
    if !respOk resp.status then errResult ("Web HTTP ".data ++ natDigits resp.status)
    else
      match resp.bodyE with
      | .error m => errResult ("Web: ".data ++ m.data)
      | .ok html =>
        match (do
          let posts ← extractPostsFromJson html postsLimit
          let profile ← extractProfileFromMetaTags html
          pure (posts, profile) : Except String (List SocialPost × ProfileQuad)) with
        | .error m => errResult ("Web: ".data ++ m.data)
        | .ok (posts, profile) =>
          let jsonProfile := extractProfileFromJson html
          { followers :=
              match jsonProfile.followers with
              | some v => some v
              | none => profile.followers
            following :=
              match jsonProfile.following with
              | some v => some v
              | none => profile.following
            posts_count :=
              match jsonProfile.postsCount with
              | some v => some v
              | none => profile.postsCount
            bio :=
              match jsonProfile.bio with
              | some v => some v
              | none => profile.bio
            recent_posts := posts
            error := none }

/-- `getFreshProxyUrl` (part_001 338-345): the newly acquired proxy URL, or
the current one when acquisition fails or yields nothing. -/
def getFreshProxyUrl (fresh : Option Str) (currentProxyUrl : Str) : Option Str :=
  some (fresh.getD currentProxyUrl)

/-- The retry classification test `apiResult?.error?.includes('429')`. -/
def p1Has429 (r : ProfileResult) : Bool :=
  match r.error with
  | some e => jsIncludes "429".data e
  | none => false

/-- Trace of one part_001 cascade run. -/
structure P1Trace where
  apiCalls : Nat
  proxiesUsed : List (Option Str)
  webCalled : Bool
deriving DecidableEq, Repr

def p1ErrorMsg : Str :=
  "Profile metrics OK but no post engagement data (IG blocks API + no embedded JSON)".data

/-- Strategy-2-and-final part of the part_001 cascade (lines 37-59). -/
def p1Finish (apiResult webResult : ProfileResult) : ProfileResult :=
  if webResult.recent_posts ≠ [] then webResult
  else if webResult.followers ≠ none then
    { webResult with
      error := if webResult.recent_posts = [] then some p1ErrorMsg else none }
  else apiResult

/-- `scrapeInstagram` of part_001 (17-60), with an invocation trace. -/
def scrapeInstagramP1 (handle : Str) (postsLimit : Nat) (proxyUrl : Option Str)
    (o : P1Oracle) : ProfileResult × P1Trace :=
  let _cleanHandle := stripLeadingAt handle
  let apiResult := tryPrivateApi postsLimit o.cookies1 o.api1
  if apiResult.error = none ∧ apiResult.recent_posts ≠ [] then
    (apiResult, ⟨1, [proxyUrl], false⟩)
  else
    if p1Has429 apiResult = true ∧ proxyUrl ≠ none then
      let freshProxyUrl := getFreshProxyUrl o.fresh (proxyUrl.getD [])
      let retryResult := tryPrivateApi postsLimit o.cookies2 o.api2
      if retryResult.error = none ∧ retryResult.recent_posts ≠ [] then
        (retryResult, ⟨2, [proxyUrl, freshProxyUrl], false⟩)
      else
        let webResult := tryWebPage postsLimit o.web
        (p1Finish apiResult webResult, ⟨2, [proxyUrl, freshProxyUrl], true⟩)
    else
      let webResult := tryWebPage postsLimit o.web
      (p1Finish apiResult webResult, ⟨1, [proxyUrl], true⟩)

-- ---------------------------------------------------------------------------
-- facebook.ts: post ranking
-- ---------------------------------------------------------------------------

/-- Code-point lexicographic comparison (model of `localeCompare` on the
ASCII date strings compared here). -/
def strCmp : Str → Str → ℤ
  | [], [] => 0
  | [], _ :: _ => -1
  | _ :: _, [] => 1
  | a :: as, b :: bs => if a < b then -1 else if b < a then 1 else strCmp as bs

/-- The sort comparator of `extractPostsFromDesktopJson` (facebook.ts
285-288): `0` when either side lacks a date, else date-descending. -/
def fbDateCmp (a b : SocialPost) : ℤ :=
  match a.posted_at, b.posted_at with
  | some da, some db => strCmp db da
  | _, _ => 0

/-- `posts.sort(comparator)`: `Array.prototype.sort` is a stable sort, here
modelled as a stable insertion sort. -/
def sortPostsByDate (posts : List SocialPost) : List SocialPost :=
  List.insertionSort (fun a b => fbDateCmp a b ≤ 0) posts

-- ---------------------------------------------------------------------------
-- facebook.ts: desktop post extraction (`extractPostsFromDesktopJson`, 181-291)
-- ---------------------------------------------------------------------------

/-- The staleness test of method A: `(Date.now() / 1000 - ts) / 86400 > 365`. -/
def fbStale (nowMs : ℤ) (ts : Nat) : Bool :=
  decide ((((nowMs : ℚ) / 1000 - (ts : ℚ)) / 86400) > 365)

/-- `"message"\s*:\s*\x7b\s*"text"\s*:\s*"((?:[^"\\]|\\.)*)"`. -/
def fbMsgStep (s : Str) : Option (Str × Str) := do
  let s ← eatLit "\"message\"".data s
  let s := eatWs s
  let s ← eatLit [':'] s
  let s := eatWs s
  let s ← eatLit ['\x7b'] s
  let s := eatWs s
  let s ← eatLit "\"text\"".data s
  let s := eatWs s
  let s ← eatLit [':'] s
  let s := eatWs s
  let s ← eatLit ['"'] s
  eatJsonStr s

/-- `"text"\s*:\s*"((?:[^"\\]|\\[\s\S])\x7b10,300\x7d)"`. -/
def fbTextBoundedStep (s : Str) : Option (Str × Str) := do
  let s ← eatLit "\"text\"".data s
  let s := eatWs s
  let s ← eatLit [':'] s
  let s := eatWs s
  let s ← eatLit ['"'] s
  eatJsonStrBounded 10 300 s

/-- `"i18n_reaction_count"\s*:\s*"(\d+)`. -/
def fbI18nStep (s : Str) : Option (Str × Str) := do
  let s ← eatLit "\"i18n_reaction_count\"".data s
  let s := eatWs s
  let s ← eatLit [':'] s
  let s := eatWs s
  let s ← eatLit ['"'] s
  eatClassPlus Char.isDigit s

/-- Does `word` occur in the tail of `run` with at least one character before
and after it?  (The `[^"]+permalink[^"]+` shape.) -/
def hasInfixTail (word : Str) : Str → Bool
  | [] => false
  | c :: rest =>
    (match eatLit word (c :: rest) with
     | some r => !r.isEmpty
     | none => false) || hasInfixTail word rest

def hasMidInfix (word : Str) : Str → Bool
  | [] => false
  | _ :: rest => hasInfixTail word rest

/-- The literal `:\/\/www.facebook.com\/` of the escaped post-URL patterns. -/
def fbUrlLit : Str := ":\\/\\/www.facebook.com\\/".data

/-- `"url"\s*:\s*"(https?:\\\/\\\/www\.facebook\.com\\\/[^"]+permalink[^"]+)"`. -/
def fbUrlPermalinkStep (s : Str) : Option (Str × Str) := do
  let s ← eatLit "\"url\"".data s
  let s := eatWs s
  let s ← eatLit [':'] s
  let s := eatWs s
  let s ← eatLit ['"'] s
  let s ← eatLit "http".data s
  let (sChar, s) : Str × Str :=
    match s with
    | 's' :: r => (['s'], r)
    | r => ([], r)
  let s ← eatLit fbUrlLit s
  let (run, s) := munchClass (fun c => c ≠ '"') s
  if hasMidInfix "permalink".data run then do
    let s ← eatLit ['"'] s
    pure ("http".data ++ sChar ++ fbUrlLit ++ run, s)
  else none

/-- `"url"\s*:\s*"(https?:\\\/\\\/www\.facebook\.com\\\/(?:photo|video|reel)[^"]+)"`. -/
def fbUrlMediaStep (s : Str) : Option (Str × Str) := do
  let s ← eatLit "\"url\"".data s
  let s := eatWs s
  let s ← eatLit [':'] s
  let s := eatWs s
  let s ← eatLit ['"'] s
  let s ← eatLit "http".data s
  let (sChar, s) : Str × Str :=
    match s with
    | 's' :: r => (['s'], r)
    | r => ([], r)
  let s ← eatLit fbUrlLit s
  let (alt, s) ← (do
    match eatLit "photo".data s with
    | some r => some ("photo".data, r)
    | none =>
      match eatLit "video".data s with
      | some r => some ("video".data, r)
      | none => (eatLit "reel".data s).map (fun r => ("reel".data, r)))
  let (run, s) := munchClass (fun c => c ≠ '"') s
  if run.isEmpty then none
  else do
    let s ← eatLit ['"'] s
    pure ("http".data ++ sChar ++ fbUrlLit ++ alt ++ run, s)

/-- Media-type sniffing of method A (substring tests on the window). -/
def fbMediaType (vicinity : Str) : Option Str :=
  if jsIncludes "\"is_video\":true".data vicinity then some "video".data
  else if jsIncludes "\"photo_image\"".data vicinity || jsIncludes "\"image\"".data vicinity then
    some "image".data
  else none

/--
One iteration of the method-A loop body (facebook.ts 192-248) for the anchor
at `pos` with 10-digit timestamp `ds`: `none` when the iteration `continue`s
(stale timestamp, no usable message text, or duplicate), otherwise the built
post together with its dedupe key.
-/
def fbMethodAStep (nowMs : ℤ) (html : Str) (pos : Nat) (ds : Str) (seen : List Str) :
    Option (SocialPost × Str) :=
  let ts := natOfDigits ds
  if fbStale nowMs ts then none
  else
    let vicinity := jsSlice html (pos - 3000) (min html.length (pos + 5000))
    let messageMatch :=
      match firstCap fbMsgStep vicinity with
      | some m => some m
      | none => firstCap fbTextBoundedStep vicinity
    match messageMatch with
    | none => none
    | some raw =>
      if raw.length < 5 then none
      else
        let text := (decodeJsonEscapes raw).take 300
        let dedupeKey := text.take 50
        if dedupeKey ∈ seen then none
        else
          let reactions :=
            match firstCap (jsonNestedNumStep "reaction_count" "count") vicinity with
            | some v => some v
            | none =>
              match firstCap (jsonNestedNumStep "reactors" "count") vicinity with
              | some v => some v
              | none => firstCap fbI18nStep vicinity
          let commentCount :=
            match firstCap (jsonNestedNumStep "comment_count" "total_count") vicinity with
            | some v => some v
            | none => firstCap (jsonNumStep "total_comment_count") vicinity
          let _shareCount := firstCap (jsonNestedNumStep "share_count" "count") vicinity
          let postUrl :=
            match firstCap fbUrlPermalinkStep vicinity with
            | some u => some u
            | none => firstCap fbUrlMediaStep vicinity
          some ({
            url := (postUrl.map decodeJsonEscapes).getD []
            caption_snippet := text
            likes := reactions.map (fun d => (natOfDigits d : ℤ))
            comments := commentCount.map (fun d => (natOfDigits d : ℤ))
            posted_at := some (isoDate ts)
            media_type := fbMediaType vicinity }, dedupeKey)

/-- Method-A loop: produced posts plus the shared `seen` set. -/
def fbMethodAGo (nowMs : ℤ) (html : Str) (limit : Nat) :
    List (Nat × Str) → List Str → Nat → List SocialPost × List Str
  | [], seen, _ => ([], seen)
  | (pos, ds) :: ms, seen, cnt =>
    if limit ≤ cnt then ([], seen)
    else
      match fbMethodAStep nowMs html pos ds seen with
      | none => fbMethodAGo nowMs html limit ms seen cnt
      | some (post, dedupeKey) =>
        let r := fbMethodAGo nowMs html limit ms (dedupeKey :: seen) (cnt + 1)
        (post :: r.1, r.2)

/-- Method-B loop (facebook.ts 251-282): global message matches. -/
def fbMethodBGo (html : Str) (limit : Nat) :
    List (Nat × Str) → List Str → Nat → List SocialPost
  | [], _, _ => []
  | (pos, rawText) :: ms, seen, cnt =>
    if limit ≤ cnt then []
    else if rawText.length < 10 then fbMethodBGo html limit ms seen cnt
    else
      let text := (decodeJsonEscapes rawText).take 300
      let dedupeKey := text.take 50
      if dedupeKey ∈ seen then fbMethodBGo html limit ms seen cnt
      else
        let vicinity := jsSlice html (pos - 2000) (min html.length (pos + 3000))
        let reactions := firstCap (jsonNestedNumStep "reaction_count" "count") vicinity
        let commentCount := firstCap (jsonNestedNumStep "comment_count" "total_count") vicinity
        let timeMatch := firstCap (jsonNum10Step "creation_time") vicinity
        let post : SocialPost := {
          url := []
          caption_snippet := text
          likes := reactions.map (fun d => (natOfDigits d : ℤ))
          comments := commentCount.map (fun d => (natOfDigits d : ℤ))
          posted_at := timeMatch.map (fun ds => isoDate (natOfDigits ds))
          media_type := none }
        post :: fbMethodBGo html limit ms (dedupeKey :: seen) (cnt + 1)

/--
`extractPostsFromDesktopJson(html, limit)` (facebook.ts 181-291), with the
clock `nowMs = Date.now()` explicit.  `creation_time` anchors are 10-digit,
so the `toISOString` calls cannot throw here.
-/
def extractPostsFromDesktopJson (nowMs : ℤ) (html : Str) (limit : Nat) : List SocialPost :=
  let creations := gmatches (jsonNum10Step "creation_time") html
  let (postsA, seenA) := fbMethodAGo nowMs html limit creations [] 0
  let posts :=
    if postsA.length < limit then
      postsA ++ fbMethodBGo html limit (gmatches fbMsgStep html) seenA postsA.length
    else postsA
  (sortPostsByDate posts).take limit

-- ---------------------------------------------------------------------------
-- facebook.ts: follower / bio extraction
-- ---------------------------------------------------------------------------

/-- Character class `[\d\s,.]` of the facebook follower patterns. -/
def isFbNum (c : Char) : Bool := c.isDigit || isJsWs c || c = ',' || c = '.'

/-- `([\d\s,.]+)\s*KEYWORDS`: numeric token (may include spaces) then keywords. -/
def fbNumKwStep (kwFun : Str → Option Str) (s : Str) : Option (Str × Str) := do
  let (tok, s1) ← eatClassPlus isFbNum s
  (kwFun (eatWs s1)).map (fun r => (tok, r))

/-- `(?:os[oó]b lubi|obserwuj[aą]cych|polubie[nń])/i`. -/
def fbPlKw : Str → Option Str :=
  eatAlts [kw "os" ++ [['o', 'ó']] ++ kw "b lubi",
           kw "obserwuj" ++ [['a', 'ą']] ++ kw "cych",
           kw "polubie" ++ [['n', 'ń']]]

/-- `(?:people like|followers|likes)/i`. -/
def fbEnKw : Str → Option Str :=
  eatAlts [kw "people like", kw "followers", kw "likes"]

/-- The two ?? -chained og:description regexes of facebook.ts. -/
def fbOgDesc (html : Str) : Option Str :=
  match firstCap (metaFwdStep "property=\"og:description\"") html with
  | some d => some d
  | none => firstCap (metaRevStep "property=\"og:description\"") html

/-- `<meta\s+name="description"\s+content="([^"]+)"/i` (forward only). -/
def fbMetaDesc (html : Str) : Option Str :=
  firstCap (metaFwdStep "name=\"description\"") html

/-- Polish-then-English follower scan of one description; `some r` models an
early `return r` (even when `parseCount` yields `null`). -/
def fbFollowersOfDesc (desc : Str) : Option (Option ℤ) :=
  match firstCap (fbNumKwStep fbPlKw) desc with
  | some m => some (parseCount m)
  | none =>
    match firstCap (fbNumKwStep fbEnKw) desc with
    | some m => some (parseCount m)
    | none => none

/-- The `"follower_count"/"followers_count"/"fan_count"` JSON fallbacks. -/
def fbFollowersJson (html : Str) : Option ℤ :=
  (match firstCap (jsonNumStepCI "follower_count") html with
   | some d => some d
   | none =>
     match firstCap (jsonNumStepCI "followers_count") html with
     | some d => some d
     | none => firstCap (jsonNumStepCI "fan_count") html).map (fun d => (natOfDigits d : ℤ))

/-- `extractFollowers(html)` (facebook.ts 400-429); entity decoding may throw. -/
def extractFollowers (html : Str) : Except String (Option ℤ) := do
  let r1 ← match fbOgDesc html with
    | some og => do
      let desc ← decodeHtmlEntities og
      pure (fbFollowersOfDesc desc)
    | none => pure none
  match r1 with
  | some v => pure v
  | none => do
    let r2 ← match fbMetaDesc html with
      | some d => do
        let desc ← decodeHtmlEntities d
        pure (fbFollowersOfDesc desc)
      | none => pure none
    match r2 with
    | some v => pure v
    | none => pure (fbFollowersJson html)

/-- Dash class `[-–—·.]` of the facebook bio pattern. -/
def isFbBioDash (c : Char) : Bool :=
  c = '-' || c = '–' || c = '—' || c = '·' || c = '.'

/-- Capture of `\s*(.\x7b10,\x7d)$`: at least ten `.`-matchable characters
reaching the end of the input. -/
def fbBioTail (t : Str) : Option Str :=
  if t.length < 10 then none
  else
    let w := (t.takeWhile (fun c => isJsWs c)).length
    let r := t.drop (min w (t.length - 10))
    if r.any (fun c => isJsLineTerm c) then none else some r

/-- `[-–—·.]\s*(.\x7b10,\x7d)$` at the current position. -/
def fbBioStep : Str → Option Str
  | c :: rest => if isFbBioDash c then fbBioTail rest else none
  | [] => none

/-- `<title[^>]*>([^<]+)<\/title>/i`. -/
def titleStep (s : Str) : Option (Str × Str) := do
  let s ← eatLitCI "<title".data s
  let (_, s) := munchClass (fun c => c ≠ '>') s
  let s ← eatLit ['>'] s
  let (content, s) ← eatClassPlus (fun c => c ≠ '<') s
  let s ← eatLitCI "</title>".data s
  pure (content, s)

/-- Does `\s*[-|]\s*Facebook.*$` match at this position? -/
def fbTitleCutHere (s : Str) : Bool :=
  match eatWs s with
  | d :: r =>
    if d = '-' || d = '|' then
      match eatLitCI "facebook".data (eatWs r) with
      | some rest => !(rest.any (fun c => isJsLineTerm c))
      | none => false
    else false
  | [] => false

/-- `title.replace(/\s*[-|]\s*Facebook.*$/i, '')`. -/
def fbTitleCut : Str → Str
  | [] => []
  | c :: rest => if fbTitleCutHere (c :: rest) then [] else c :: fbTitleCut rest

/-- `extractBio(html)` (facebook.ts 435-451); entity decoding may throw. -/
def extractBio (html : Str) : Except String (Option Str) := do
  let r1 ← match fbOgDesc html with
    | some og => do
      let desc ← decodeHtmlEntities og
      pure (firstMatch fbBioStep desc)
    | none => pure none
  match r1 with
  | some b => pure (some ((jsTrim b).take 300))
  | none =>
    match firstCap titleStep html with
    | some t => do
      let tdec ← decodeHtmlEntities t
      let title := jsTrim (fbTitleCut tdec)
      if 5 < title.length then pure (some (title.take 300)) else pure none
    | none => pure none

-- ---------------------------------------------------------------------------
-- facebook.ts: mbasic extraction
-- ---------------------------------------------------------------------------

/-- `href="(\/story\.php\?story_fbid=\d+&amp;id=\d+[^"]*)"` (global). -/
def storyLinkStep (s : Str) : Option (Str × Str) := do
  let s ← eatLit "href=\"".data s
  let s1 ← eatLit "/story.php?story_fbid=".data s
  let (d1, s2) ← eatClassPlus Char.isDigit s1
  let s3 ← eatLit "&amp;id=".data s2
  let (d2, s4) ← eatClassPlus Char.isDigit s3
  let (tail, s5) := munchClass (fun c => c ≠ '"') s4
  let s6 ← eatLit ['"'] s5
  pure ("/story.php?story_fbid=".data ++ d1 ++ "&amp;id=".data ++ d2 ++ tail, s6)

/-- One full match of `<div[^>]*>([^<]\x7b15,\x7d)<\/div>` (the `match(../g)`
call keeps full matches, tags included). -/
def mbasicDivStep (s : Str) : Option (Str × Str) := do
  let s1 ← eatLit "<div".data s
  let (attrs, s2) := munchClass (fun c => c ≠ '>') s1
  let s3 ← eatLit ['>'] s2
  let (content, s4) := munchClass (fun c => c ≠ '<') s3
  if content.length < 15 then none
  else do
    let s5 ← eatLit "</div>".data s4
    pure ("<div".data ++ attrs ++ ['>'] ++ content ++ "</div>".data, s5)

/-- `replace(/<[^>]+>/g, '')`. -/
def stripTagsAux : Nat → Str → Str
  | 0, s => s
  | _, [] => []
  | fuel + 1, '<' :: rest =>
    (match eatClassPlus (fun c => c ≠ '>') rest with
     | some (_, '>' :: rest') => stripTagsAux fuel rest'
     | _ => '<' :: stripTagsAux fuel rest)
  | fuel + 1, c :: rest => c :: stripTagsAux fuel rest

def stripTags (s : Str) : Str := stripTagsAux s.length s

/-- `data-utime="(\d+)"`. -/
def dataUtimeStep (s : Str) : Option (Str × Str) := do
  let s ← eatLit "data-utime=\"".data s
  let (ds, s1) ← eatClassPlus Char.isDigit s
  let s2 ← eatLit ['"'] s1
  pure (ds, s2)

/-- `<abbr[^>]*>([^<]+)<\/abbr>`. -/
def abbrStep (s : Str) : Option (Str × Str) := do
  let s1 ← eatLit "<abbr".data s
  let (_, s2) := munchClass (fun c => c ≠ '>') s1
  let s3 ← eatLit ['>'] s2
  let (content, s4) ← eatClassPlus (fun c => c ≠ '<') s3
  let s5 ← eatLit "</abbr>".data s4
  pure (content, s5)

/-- `(?:reactions?|people reacted|like)/i`. -/
def mbasicLikeKw : Str → Option Str :=
  eatAlts [kw "reactions", kw "reaction", kw "people reacted", kw "like"]

/-- `(\d+)\s*KEYWORDS`. -/
def digitsKwStep (kwFun : Str → Option Str) (s : Str) : Option (Str × Str) := do
  let (ds, s1) ← eatClassPlus Char.isDigit s
  (kwFun (eatWs s1)).map (fun r => (ds, r))

/-- The mbasic story-link loop body (facebook.ts 311-357). -/
def mbasicStoryGo (html : Str) (limit : Nat) :
    List (Nat × Str) → List Str → Nat → Except String (List SocialPost)
  | [], _, _ => pure []
  | (pos, rawPath) :: ms, seen, cnt =>
    if limit ≤ cnt then pure []
    else do
      let storyPath ← decodeHtmlEntities rawPath
      let textStart := pos - 2000
      let textRegion := jsSlice html textStart pos
      let blocks := gmatches mbasicDivStep textRegion
      match blocks.getLast? with
      | none => mbasicStoryGo html limit ms seen cnt
      | some (_, lastBlock) =>
        let text := jsTrim (stripTags lastBlock)
        if text.length < 10 then mbasicStoryGo html limit ms seen cnt
        else
          let dedupeKey := text.take 50
          if dedupeKey ∈ seen then mbasicStoryGo html limit ms seen cnt
          else do
            let timeRegion := jsSlice html textStart (min html.length (pos + 500))
            let dateMatch :=
              match firstCap dataUtimeStep timeRegion with
              | some d => some d
              | none => firstCap abbrStep timeRegion
            let postedAt :=
              match dateMatch with
              | some d =>
                if d.length = 10 && d.all Char.isDigit then some (isoDate (natOfDigits d))
                else none
              | none => none
            let engageRegion := jsSlice html pos (min html.length (pos + 1000))
            let likesMatch := firstCap (digitsKwStep mbasicLikeKw) engageRegion
            let commentsMatch := firstCap (digitsKwStep (eatAlts [kw "comment"])) engageRegion
            let caption ← decodeHtmlEntities text
            let ps ← mbasicStoryGo html limit ms (dedupeKey :: seen) (cnt + 1)
            pure ({
              url := "https://mbasic.facebook.com".data ++ storyPath
              caption_snippet := caption.take 300
              likes := likesMatch.map (fun d => (natOfDigits d : ℤ))
              comments := commentsMatch.map (fun d => (natOfDigits d : ℤ))
              posted_at := postedAt
              media_type := none } :: ps)

/-- `[^>]*href="\/story` — scan the anchor tag for the story href. -/
def aScanHref : Str → Option Str
  | [] => none
  | c :: rest =>
    match eatLit "href=\"/story".data (c :: rest) with
    | some r => some r
    | none => if c = '>' then none else aScanHref rest

/-- Tail of the article pattern: `<\/div>\s*<div[^>]*>\s*<a[^>]*href="\/story`. -/
def articleSuffix (s : Str) : Option Str := do
  let s1 ← eatLit "</div>".data s
  let s2 := eatWs s1
  let s3 ← eatLit "<div".data s2
  let (_, s4) := munchClass (fun c => c ≠ '>') s3
  let s5 ← eatLit ['>'] s4
  let s6 := eatWs s5
  let s7 ← eatLit "<a".data s6
  aScanHref s7

/-- Lazy `([\s\S]*?)` up to the article suffix. -/
def articleBody : Nat → Str → Option (Str × Str)
  | fuel, s =>
    match articleSuffix s with
    | some r => some ([], r)
    | none =>
      match fuel, s with
      | f + 1, c :: rest => (articleBody f rest).map (fun p => (c :: p.1, p.2))
      | _, _ => none

/-- `<div[^>]*data-ft[^>]*>([\s\S]*?)<\/div>\s*<div[^>]*>\s*<a[^>]*href="\/story` (global). -/
def articleStep (s : Str) : Option (Str × Str) := do
  let s1 ← eatLit "<div".data s
  let (attrs, s2) := munchClass (fun c => c ≠ '>') s1
  if jsIncludes "data-ft".data attrs then do
    let s3 ← eatLit ['>'] s2
    articleBody s3.length s3
  else none

/-- The fallback article loop (facebook.ts 360-380); shares the `seen` set. -/
def mbasicArticleGo (limit : Nat) :
    List (Nat × Str) → List Str → Nat → Except String (List SocialPost)
  | [], _, _ => pure []
  | (_, body) :: ms, seen, cnt =>
    if limit ≤ cnt then pure []
    else
      let content := jsTrim (stripTags body)
      if content.length < 15 then mbasicArticleGo limit ms seen cnt
      else
        let dedupeKey := content.take 50
        if dedupeKey ∈ seen then mbasicArticleGo limit ms seen cnt
        else do
          let caption ← decodeHtmlEntities content
          let ps ← mbasicArticleGo limit ms (dedupeKey :: seen) (cnt + 1)
          pure ({
            url := []
            caption_snippet := caption.take 300
            likes := none
            comments := none
            posted_at := none
            media_type := none } :: ps)

/-- `extractPostsFromMbasic(html, limit)` (facebook.ts 297-383). -/
def extractPostsFromMbasic (html : Str) (limit : Nat) : Except String (List SocialPost) := do
  let posts ← mbasicStoryGo html limit (gmatches storyLinkStep html) [] 0
  if posts = [] then
    mbasicArticleGo limit (gmatches articleStep html) [] 0
  else pure posts

/-- `(?:people like this|osób lubi|people follow)/i`. -/
def mbasicFollowKw : Str → Option Str :=
  eatAlts [kw "people like this", kw "osób lubi", kw "people follow"]

/-- `extractMbasicFollowers(html)` (facebook.ts 389-394). -/
def extractMbasicFollowers (html : Str) : Option ℤ :=
  (firstCap (fbNumKwStep mbasicFollowKw) html).bind parseCount

-- ---------------------------------------------------------------------------
-- facebook.ts: strategies and cascade (lines 18-53)
-- ---------------------------------------------------------------------------

/-- Outcome of a facebook fetch: status plus the body-text outcome. -/
structure FbResp where
  status : Nat
  bodyE : Except String Str
deriving DecidableEq, Repr

/-- Oracle for one facebook run: the two page fetches. -/
structure FbOracle where
  desktop : Except String FbResp
  mbasic : Except String FbResp
deriving DecidableEq, Repr

/-- `tryDesktopPage` (facebook.ts 59-122). -/
def tryDesktopPage (nowMs : ℤ) (postsLimit : Nat) (fetch : Except String FbResp) :
    ProfileResult :=
  match fetch with
  | .error m => errResult m.data
  | .ok resp =>
    if !respOk resp.status then
      { followers := none, following := none, posts_count := none, bio := none,
        recent_posts := [], error := some ("HTTP ".data ++ natDigits resp.status) }
    else
      match resp.bodyE with
      | .error m => errResult m.data
      | .ok html =>
        let posts := extractPostsFromDesktopJson nowMs html postsLimit
        match extractFollowers html with
        | .error m => errResult m.data
        | .ok followers =>
          match extractBio html with
          | .error m => errResult m.data
          | .ok bio =>
            { followers := followers, following := none, posts_count := none,
              bio := bio, recent_posts := posts, error := none }

/-- `tryMbasicPage` (facebook.ts 128-175). -/
def tryMbasicPage (postsLimit : Nat) (fetch : Except String FbResp) : ProfileResult :=
  match fetch with
  | .error m => errResult ("mbasic: ".data ++ m.data)
  | .ok resp =>
    if !respOk resp.status then
      { followers := none, following := none, posts_count := none, bio := none,
        recent_posts := [], error := some ("mbasic HTTP ".data ++ natDigits resp.status) }
    else
      match resp.bodyE with
      | .error m => errResult ("mbasic: ".data ++ m.data)
      | .ok html =>
        match extractPostsFromMbasic html postsLimit with
        | .error m => errResult ("mbasic: ".data ++ m.data)
        | .ok posts =>
          let followers := extractMbasicFollowers html
          { followers := followers, following := none, posts_count := none,
            bio := none, recent_posts := posts, error := none }

/--
`scrapeFacebook` (facebook.ts 18-53): desktop first; mbasic only when the
desktop result has fewer than two posts; merged record when mbasic found
posts, else the desktop result.  The boolean of the pair records whether the
mbasic strategy was invoked.
-/
def scrapeFacebook (nowMs : ℤ) (postsLimit : Nat) (o : FbOracle) : ProfileResult × Bool :=
  let desktopResult := tryDesktopPage nowMs postsLimit o.desktop
  if 2 ≤ desktopResult.recent_posts.length then (desktopResult, false)
  else
    let mbasicResult := tryMbasicPage postsLimit o.mbasic
    if mbasicResult.recent_posts ≠ [] then
      ({ followers :=
           match desktopResult.followers with
           | some v => some v
           | none => mbasicResult.followers
         following := none
         posts_count := none
         bio :=
           match desktopResult.bio with
           | some v => some v
           | none => mbasicResult.bio
         recent_posts := mbasicResult.recent_posts
         error := none }, true)
    else (desktopResult, true)

-- ---------------------------------------------------------------------------
-- Specification-side helpers (used only to state theorems)
-- ---------------------------------------------------------------------------

/-- The post URL built from a shortcode. -/
def igUrl (sc : Str) : Str := "https://www.instagram.com/p/".data ++ sc ++ "/".data

/-- First-seen distinct anchor values of a match list, relative to an
already-seen set (specification of the dedup behaviour of the anchor loop). -/
def dedupNew (seen : List Str) : List (Nat × Str) → List Str
  | [] => []
  | (_, sc) :: ms =>
    if sc ∈ seen then dedupNew seen ms else sc :: dedupNew (sc :: seen) ms

-- ---------------------------------------------------------------------------
-- Concrete inputs used by the counterexamples and witnesses
-- ---------------------------------------------------------------------------

/-- A fixed clock: 2025-10-09 (in milliseconds, as `Date.now()`). -/
def nowT0 : ℤ := 1760000000000

/-- Desktop HTML with one fresh post and a follower count. -/
def fbOnePostHtml : Str :=
  "\"creation_time\":1759900000 \"message\":\x7b\"text\":\"hello world from page\"\x7d \"follower_count\": 123".data

/-- Desktop HTML whose only post has a future timestamp (ten days ahead). -/
def fbFutureHtml : Str :=
  "\"creation_time\":1760864000 \"message\":\x7b\"text\":\"hello world from future\"\x7d".data

/-- Facebook oracle: desktop succeeds with `fbOnePostHtml`, mbasic fails. -/
def fbCexOracle : FbOracle := ⟨.ok ⟨200, .ok fbOnePostHtml⟩, .ok ⟨500, .ok []⟩⟩

/-- Bootstrap body carrying a numeric character reference above `0x10FFFF`. -/
def igEntityHtml : Str :=
  "<meta property=\"og:description\" content=\"&#x110000;\">".data

/-- Instagram oracle for the crash: bootstrap 200 with `igEntityHtml` and no
cookies (so the REST strategy is skipped). -/
def igEntityOracle : IgOracle := ⟨.ok ⟨200, [], .ok igEntityHtml⟩, .ok ⟨500, .ok none⟩⟩

/-- A complete API payload: one post with engagement. -/
def igRichNode : IgApiNode :=
  ⟨"AB1".data, [some "hi there".data], some 7, none, none, some 2, none,
   some 1700000000, some false⟩

def igRichUser : IgApiUser :=
  ⟨some 1000, none, some 50, none, some ⟨some 321, [some igRichNode]⟩, none, some "bio".data⟩

/-- Instagram oracle whose REST strategy succeeds with a post. -/
def igRichOracle : IgOracle :=
  ⟨.ok ⟨200, ["csrftoken=abc; Path=/".data], .ok "<html></html>".data⟩,
   .ok ⟨200, .ok (some igRichUser)⟩⟩

/-- part_001 oracle: API 403; web page carries a follower count but no post. -/
def p1CexOracle : P1Oracle :=
  ⟨none, .ok ⟨403, .ok none⟩, none, none, .ok ⟨500, .ok none⟩,
   .ok ⟨200, .ok "\"edge_followed_by\":\x7b\"count\":100\x7d".data⟩⟩

/-- part_001 oracle: API rate-limited (HTTP 429), everything else failing. -/
def p1RateLimitedOracle : P1Oracle :=
  ⟨none, .ok ⟨429, .ok none⟩, none, none, .ok ⟨500, .ok none⟩, .ok ⟨500, .ok []⟩⟩

/-- part_001 oracle: API 429, a proxy retry whose fresh-identity acquisition
fails (so the old proxy is reused), retry also 429, web failing. -/
def p1RetrySameOracle : P1Oracle :=
  ⟨none, .ok ⟨429, .ok none⟩, none, none, .ok ⟨429, .ok none⟩, .ok ⟨500, .ok []⟩⟩

/-- part_001 oracle with every strategy failing outright. -/
def p1AllFailOracle : P1Oracle :=
  ⟨none, .ok ⟨403, .ok none⟩, none, none, .ok ⟨500, .ok none⟩, .ok ⟨500, .ok []⟩⟩

/-- Document with three distinct well-formed shortcode anchors. -/
def c6Html : Str :=
  "x\"shortcode\":\"AB1\" y\"shortcode\":\"CD2\" z\"shortcode\":\"EF3\"".data

/-- A default post record (used only as a `getD` fallback in witnesses). -/
def postDefault : SocialPost := ⟨[], [], none, none, none, none⟩

/-- Three posts: dated old, undated, dated new (in that input order). -/
def postOld : SocialPost := ⟨"a".data, [], none, none, some "2024-01-01".data, none⟩
def postNoDate : SocialPost := ⟨"x".data, [], none, none, none, none⟩
def postNew : SocialPost := ⟨"b".data, [], none, none, some "2024-12-31".data, none⟩

-- ---------------------------------------------------------------------------
-- Theorems
-- ---------------------------------------------------------------------------

attribute [local semireducible] Rat.add Rat.mul Rat.sub Rat.inv

/-- Both strategy results of facebook.ts leave `following`/`posts_count` null. -/
theorem tryDesktopPage_null_fields (nowMs : ℤ) (limit : Nat) (f : Except String FbResp) :
    (tryDesktopPage nowMs limit f).following = none ∧
    (tryDesktopPage nowMs limit f).posts_count = none := by
  rcases f with m | ⟨st, body⟩ <;>
  · simp only [tryDesktopPage, errResult]
    repeat' split
    all_goals simp

theorem tryMbasicPage_null_fields (limit : Nat) (f : Except String FbResp) :
    (tryMbasicPage limit f).following = none ∧
    (tryMbasicPage limit f).posts_count = none := by
  rcases f with m | ⟨st, body⟩ <;>
  · simp only [tryMbasicPage, errResult]
    repeat' split
    all_goals simp

/--
C10: every result of `scrapeFacebook` — desktop path, merged path, and the
fallback — has `following = null` and `posts_count = null`; the Facebook
scraper never populates these fields.
-/
theorem c10_fb_never_following_posts_count (nowMs : ℤ) (limit : Nat) (o : FbOracle) :
    (scrapeFacebook nowMs limit o).1.following = none ∧
    (scrapeFacebook nowMs limit o).1.posts_count = none := by
  have hd := tryDesktopPage_null_fields nowMs limit o.desktop
  simp only [scrapeFacebook]
  split
  · exact hd
  · split
    · exact ⟨rfl, rfl⟩
    · exact hd

/--
C5 (code bug): `scrapeInstagram` of instagram.ts *can* throw past its
boundary.  With a bootstrap response of HTTP 200 whose body's
`og:description` holds the character reference `&#x110000;` (and no cookies,
so the REST strategy is skipped), step 3 calls `extractFromHtml` outside any
`try`, and the unguarded `String.fromCodePoint` in `decodeHtmlEntities`
throws a `RangeError`.
-/
theorem c5_entity_crash :
    (scrapeInstagram "brand".data 12 igEntityOracle).1 =
      .error ("Invalid code point 1114112") ∧
    (scrapeInstagram "brand".data 12 igEntityOracle).2.htmlParsed = true := by
  constructor <;> rfl

/--
C2 (amended): the Facebook cascade halts after the first (desktop) strategy
exactly when that strategy yields at least **two** posts — one post, or
profile fields alone, do not short-circuit it; when it halts, the desktop
result is returned unchanged.  The Instagram cascade halts after the REST
strategy exactly when cookies were captured and the API yielded at least one
post, in which case the HTML-extraction step never runs.
-/
theorem c2_cascade_halt_condition (nowMs : ℤ) (limit : Nat) (o : FbOracle)
    (handle : Str) (limit2 : Nat) (oi : IgOracle) (r : ProfileResult) :
    ((scrapeFacebook nowMs limit o).2 = false ↔
      2 ≤ (tryDesktopPage nowMs limit o.desktop).recent_posts.length) ∧
    (2 ≤ (tryDesktopPage nowMs limit o.desktop).recent_posts.length →
      (scrapeFacebook nowMs limit o).1 = tryDesktopPage nowMs limit o.desktop) ∧
    ((bootstrapSession oi.boot).1 ≠ [] →
      tryRestApi limit2 oi.api = some r →
      r.recent_posts ≠ [] →
      (scrapeInstagram handle limit2 oi).1 = .ok r ∧
      (scrapeInstagram handle limit2 oi).2.htmlParsed = false) := by
  refine ⟨?_, ?_, ?_⟩
  · simp only [scrapeFacebook]
    split
    · next h => simp [h]
    · next h =>
      simp only [h, iff_false]
      intro hf
      have : (if (tryMbasicPage limit o.mbasic).recent_posts ≠ [] then True else True) = True := by
        simp
      revert hf
      split <;> simp
  · intro h2
    simp only [scrapeFacebook]
    split
    · rfl
    · next h => exact absurd h2 h
  · intro hc hr hp
    rcases hbs : bootstrapSession oi.boot with ⟨cookies, html⟩
    have hc' : cookies ≠ [] := by rw [hbs] at hc; exact hc
    simp only [scrapeInstagram, hbs, hc', if_true, ne_eq, not_false_eq_true, if_pos, hr]
    simp [hp]

/--
C2 (counterexample): a first strategy returning rich data — one post *and* a
non-null follower count — does not short-circuit the Facebook cascade: the
mbasic strategy is still invoked, refuting the claim as stated.
-/
theorem c2_counterexample :
    (tryDesktopPage nowT0 12 fbCexOracle.desktop).recent_posts.length = 1 ∧
    (tryDesktopPage nowT0 12 fbCexOracle.desktop).followers = some 123 ∧
    (scrapeFacebook nowT0 12 fbCexOracle).2 = true := by decide

/-- C2 witness: the amended halt conditions hold at a concrete run. -/
theorem c2_witness :
    (scrapeInstagram "brand".data 12 igRichOracle).1 =
      .ok ((tryRestApi 12 igRichOracle.api).getD (errResult [])) ∧
    (scrapeInstagram "brand".data 12 igRichOracle).2.htmlParsed = false := by
  have h := c2_cascade_halt_condition nowT0 12 fbCexOracle "brand".data 12 igRichOracle
    ((tryRestApi 12 igRichOracle.api).getD (errResult []))
  exact h.2.2 (by decide) (by decide) (by decide)

/-- `stripLeadingAt` only removes a leading `@`. -/
theorem stripLeadingAt_of_not_at (s : Str) (h : s.head? ≠ some '@') :
    stripLeadingAt s = s := by
  cases s with
  | nil => rfl
  | cons c t =>
    have hc : c ≠ '@' := fun e => h (by simp [e])
    unfold stripLeadingAt
    split
    · next heq =>
      injection heq with h1 _
      exact absurd h1 hc
    · rfl

/--
C9: exactly one leading `@` is stripped before any request is built — for a
handle not beginning with `@`, `scrapeInstagram` on `'@' :: h` issues the
same requests and returns the same result as on `h`, while a second leading
`@` is preserved by the stripping.
-/
theorem c9_handle_at_stripping (h : Str) (limit : Nat) (o : IgOracle)
    (hh : h.head? ≠ some '@') :
    scrapeInstagram ('@' :: h) limit o = scrapeInstagram h limit o ∧
    (∀ t : Str, stripLeadingAt ('@' :: '@' :: t) = '@' :: t) := by
  constructor
  · have hs : stripLeadingAt ('@' :: h) = stripLeadingAt h := by
      rw [stripLeadingAt_of_not_at h hh]; rfl
    simp only [scrapeInstagram, hs]
  · intro t; rfl

/-- C9 witness: concrete handles `"@brand"` and `"brand"` agree. -/
theorem c9_witness :
    scrapeInstagram ('@' :: "brand".data) 12 igRichOracle =
      scrapeInstagram "brand".data 12 igRichOracle ∧
    stripLeadingAt ('@' :: '@' :: "x".data) = '@' :: "x".data :=
  ⟨(c9_handle_at_stripping "brand".data 12 igRichOracle (by decide)).1,
   (c9_handle_at_stripping "brand".data 12 igRichOracle (by decide)).2 "x".data⟩

/--
C3 (counterexample): a strategy classified RateLimited is *not* retried when
no proxy URL is configured — the first attempt yields `HTTP 429`, yet only
one API call is made; and when a retry does happen but acquiring a fresh
identity fails, the retry reuses the *same* network identity.
-/
theorem c3_counterexample :
    (tryPrivateApi 12 p1RateLimitedOracle.cookies1 p1RateLimitedOracle.api1).error =
      some "HTTP 429".data ∧
    (scrapeInstagramP1 "brand".data 12 none p1RateLimitedOracle).2.apiCalls = 1 ∧
    (scrapeInstagramP1 "brand".data 12 (some "p".data) p1RetrySameOracle).2.proxiesUsed =
      [some "p".data, some "p".data] := by decide

/--
C3 (amended): the API strategy is retried (exactly once, never more) iff the
first attempt's error mentions `429` *and* a proxy URL is configured; the
retry requests a fresh proxy identity, which falls back to the current one
when acquisition fails; after an unsuccessful retry the cascade advances to
the web strategy.
-/
theorem c3_retry_condition (handle : Str) (limit : Nat) (proxyUrl : Option Str)
    (o : P1Oracle) :
    ((scrapeInstagramP1 handle limit proxyUrl o).2.apiCalls = 2 ↔
      (p1Has429 (tryPrivateApi limit o.cookies1 o.api1) = true ∧ proxyUrl ≠ none)) ∧
    ((scrapeInstagramP1 handle limit proxyUrl o).2.apiCalls = 1 ∨
      (scrapeInstagramP1 handle limit proxyUrl o).2.apiCalls = 2) ∧
    ((scrapeInstagramP1 handle limit proxyUrl o).2.apiCalls = 2 →
      (scrapeInstagramP1 handle limit proxyUrl o).2.proxiesUsed =
        [proxyUrl, some (o.fresh.getD (proxyUrl.getD []))] ∧
      (¬((tryPrivateApi limit o.cookies2 o.api2).error = none ∧
          (tryPrivateApi limit o.cookies2 o.api2).recent_posts ≠ []) →
        (scrapeInstagramP1 handle limit proxyUrl o).2.webCalled = true)) := by
  by_cases hsucc : (tryPrivateApi limit o.cookies1 o.api1).error = none ∧
      (tryPrivateApi limit o.cookies1 o.api1).recent_posts ≠ []
  · have h429 : p1Has429 (tryPrivateApi limit o.cookies1 o.api1) = false := by
      simp [p1Has429, hsucc.1]
    simp [scrapeInstagramP1, hsucc, h429]
  · by_cases hcond : p1Has429 (tryPrivateApi limit o.cookies1 o.api1) = true ∧ proxyUrl ≠ none
    · by_cases hretry : (tryPrivateApi limit o.cookies2 o.api2).error = none ∧
          (tryPrivateApi limit o.cookies2 o.api2).recent_posts ≠ []
      · simp [scrapeInstagramP1, hsucc, hcond, hretry, getFreshProxyUrl]
      · simp [scrapeInstagramP1, hsucc, hcond, hretry, getFreshProxyUrl]
    · simp [scrapeInstagramP1, hsucc, hcond]

/-- C3 witness: a rate-limited run with a proxy retries exactly once and then
falls through to the web strategy. -/
theorem c3_witness :
    (scrapeInstagramP1 "brand".data 12 (some "p".data) p1RetrySameOracle).2.apiCalls = 2 ∧
    (scrapeInstagramP1 "brand".data 12 (some "p".data) p1RetrySameOracle).2.webCalled = true := by
  have h := c3_retry_condition "brand".data 12 (some "p".data) p1RetrySameOracle
  have h2 := h.1.mpr ⟨by decide, by decide⟩
  exact ⟨h2, (h.2.2 h2).2 (by decide)⟩

/-- The post built by one method-A iteration carries its anchor's date, and
that anchor passed the staleness test. -/
theorem fbMethodAStep_spec (nowMs : ℤ) (html : Str) (pos : Nat) (ds : Str)
    (seen : List Str) (post : SocialPost) (key : Str)
    (h : fbMethodAStep nowMs html pos ds seen = some (post, key)) :
    post.posted_at = some (isoDate (natOfDigits ds)) ∧
    fbStale nowMs (natOfDigits ds) = false := by
  unfold fbMethodAStep at h
  dsimp only at h
  split at h
  · exact Option.noConfusion h
  · next hstale =>
    refine ⟨?_, by simp only [Bool.not_eq_true] at hstale; exact hstale⟩
    split at h
    · exact Option.noConfusion h
    · split at h
      · exact Option.noConfusion h
      · split at h
        · exact Option.noConfusion h
        · exact (congrArg (fun x => (Option.getD x (post, key)).1.posted_at) h).symm

/--
C8 (amended): in the `creation_time`-anchored extraction (method A), every
record that reaches the output carries its anchor's date and that timestamp
is at most 365 days old — in particular records older than 365 days are
excluded.  Future timestamps are *not* excluded (they pass the
`ageInDays > 365` test, whose left side is negative for them).
-/
theorem c8_staleness_filter (nowMs : ℤ) (html : Str) (limit : Nat) :
    ∀ (ms : List (Nat × Str)) (seen : List Str) (cnt : Nat)
      (p : SocialPost), p ∈ (fbMethodAGo nowMs html limit ms seen cnt).1 →
      ∃ ts : Nat, p.posted_at = some (isoDate ts) ∧ fbStale nowMs ts = false := by
  intro ms
  induction ms with
  | nil =>
    intro seen cnt p hp
    simp [fbMethodAGo] at hp
  | cons m rest ih =>
    intro seen cnt p hp
    obtain ⟨pos, ds⟩ := m
    simp only [fbMethodAGo] at hp
    split at hp
    · simp at hp
    · split at hp
      · exact ih _ _ _ hp
      · next post key hstep =>
        simp only [List.mem_cons] at hp
        rcases hp with hpe | hpm
        · obtain ⟨h1, h2⟩ := fbMethodAStep_spec nowMs html pos ds seen post key hstep
          exact ⟨natOfDigits ds, hpe ▸ h1, h2⟩
        · exact ih _ _ _ hpm

/--
C8 (counterexample): a record whose timestamp lies in the future (ten days
past the clock) is *not* flagged or excluded — it appears in the output of
the desktop extraction, refuting the claim as stated.
-/
theorem c8_counterexample :
    (extractPostsFromDesktopJson nowT0 fbFutureHtml 12).map (·.posted_at) =
      [some (isoDate 1760864000)] ∧
    fbStale nowT0 1760864000 = false ∧
    ((nowT0 : ℚ) / 1000 < (1760864000 : ℚ)) := by
  refine ⟨by decide, by decide, by decide⟩

/-- C8 witness: the in-horizon record of a concrete document is kept, with
its anchor timestamp passing the staleness test. -/
theorem c8_witness :
    ∃ ts : Nat,
      ((fbMethodAGo nowT0 fbOnePostHtml 12
          (gmatches (jsonNum10Step "creation_time") fbOnePostHtml) [] 0).1.getD 0
        postDefault).posted_at = some (isoDate ts) ∧
      fbStale nowT0 ts = false :=
  c8_staleness_filter nowT0 fbOnePostHtml 12
    (gmatches (jsonNum10Step "creation_time") fbOnePostHtml) [] 0
    ((fbMethodAGo nowT0 fbOnePostHtml 12
        (gmatches (jsonNum10Step "creation_time") fbOnePostHtml) [] 0).1.getD 0 postDefault)
    (by decide)

/-- Every failure path of part_001's `tryPrivateApi` carries no posts. -/
theorem tryPrivateApi_error_posts (limit : Nat) (c : Option Str)
    (f : Except String P1ApiResp) :
    (tryPrivateApi limit c f).error.isSome → (tryPrivateApi limit c f).recent_posts = [] := by
  unfold tryPrivateApi errResult
  split
  · intro _; rfl
  · split
    · intro _; rfl
    · split
      · intro _; rfl
      · intro _; rfl
      · split
        · intro _; rfl
        · intro he; simp at he

/-- Every failure path of part_001's `tryWebPage` carries no posts. -/
theorem tryWebPage_error_posts (limit : Nat) (f : Except String P1WebResp) :
    (tryWebPage limit f).error.isSome → (tryWebPage limit f).recent_posts = [] := by
  unfold tryWebPage errResult
  split
  · intro _; rfl
  · split
    · intro _; rfl
    · split
      · intro _; rfl
      · split
        · intro _; rfl
        · intro he; simp at he

/-- The final composition step keeps the error-implies-no-posts invariant. -/
theorem p1Finish_error_posts (a w : ProfileResult)
    (ha : a.error.isSome → a.recent_posts = [])
    (hw : w.error.isSome → w.recent_posts = []) :
    (p1Finish a w).error.isSome → (p1Finish a w).recent_posts = [] := by
  unfold p1Finish
  split
  · exact hw
  · split
    · intro he
      dsimp at he ⊢
      split at he
      · next hp => exact hp
      · simp at he
    · exact ha

/--
C1 (amended): on every path of the part_001 cascade, a non-null `error`
implies an empty `recent_posts` list — no post is ever reported together
with an error.  (Scalar profile fields, however, *can* be non-null alongside
a non-null error; see the counterexample.)
-/
theorem c1_error_implies_no_posts (handle : Str) (limit : Nat) (proxyUrl : Option Str)
    (o : P1Oracle) :
    (scrapeInstagramP1 handle limit proxyUrl o).1.error.isSome →
    (scrapeInstagramP1 handle limit proxyUrl o).1.recent_posts = [] := by
  unfold scrapeInstagramP1
  dsimp only
  split
  · next hsucc => intro he; rw [hsucc.1] at he; simp at he
  · split
    · split
      · next hr => intro he; rw [hr.1] at he; simp at he
      · exact p1Finish_error_posts _ _
          (tryPrivateApi_error_posts limit o.cookies1 o.api1)
          (tryWebPage_error_posts limit o.web)
    · exact p1Finish_error_posts _ _
        (tryPrivateApi_error_posts limit o.cookies1 o.api1)
        (tryWebPage_error_posts limit o.web)

/--
C1 (counterexample): a result returned to the caller with a *non-null*
`error` and a *non-null* `followers` field — the part_001 cascade's
"profile metrics OK but no posts" path — refuting the claimed invariant
that a non-null error implies all scalar fields are null.
-/
theorem c1_counterexample :
    (scrapeInstagramP1 "brand".data 12 (some "p1".data) p1CexOracle).1.followers =
      some 100 ∧
    (scrapeInstagramP1 "brand".data 12 (some "p1".data) p1CexOracle).1.error =
      some p1ErrorMsg := by decide

/-- C1 witness: a fully failing run has a non-null error and no posts. -/
theorem c1_witness :
    (scrapeInstagramP1 "brand".data 12 none p1AllFailOracle).1.recent_posts = [] :=
  c1_error_implies_no_posts "brand".data 12 none p1AllFailOracle (by decide)

/-- The record built for an anchor carries that anchor's post URL. -/
theorem mkIgPost_url (html : Str) (pos : Nat) (sc : Str) (p : SocialPost)
    (h : mkIgPost html pos sc = .ok p) : p.url = igUrl sc := by
  unfold mkIgPost at h
  dsimp only at h
  split at h
  · exact (congrArg (fun x => (x.toOption.getD postDefault).url) h).symm
  · next dsv hds =>
    rcases heq : isoDateE (natOfDigits dsv) with err | v <;> rw [heq] at h
    · exact Except.noConfusion h
    · exact (congrArg (fun x => (x.toOption.getD postDefault).url) h).symm

/-- The anchor loop produces exactly the first-seen distinct anchors, cut at
the remaining budget, in document order. -/
theorem igPostsGo_spec (html : Str) (limit : Nat) :
    ∀ (ms : List (Nat × Str)) (seen : List Str) (cnt : Nat),
      (∀ m ∈ ms, (mkIgPost html m.1 m.2).isOk = true) →
      ∃ posts, igPostsGo html limit ms seen cnt = .ok posts ∧
        posts.length = min (dedupNew seen ms).length (limit - cnt) ∧
        posts.map (·.url) = ((dedupNew seen ms).take (limit - cnt)).map igUrl := by
  intro ms
  induction ms with
  | nil =>
    intro seen cnt _
    exact ⟨[], rfl, by simp [dedupNew], by simp [dedupNew]⟩
  | cons m rest ih =>
    intro seen cnt hok
    obtain ⟨pos, sc⟩ := m
    by_cases hlim : limit ≤ cnt
    · have h0 : limit - cnt = 0 := Nat.sub_eq_zero_of_le hlim
      refine ⟨[], ?_, by simp [h0], by simp [h0]⟩
      simp only [igPostsGo, hlim, if_true]
      rfl
    · by_cases hseen : sc ∈ seen
      · obtain ⟨posts, h1, h2, h3⟩ := ih seen cnt (fun m hm => hok m (List.mem_cons_of_mem _ hm))
        refine ⟨posts, ?_, ?_, ?_⟩
        · simp [igPostsGo, hlim, hseen, h1]
        · simpa [dedupNew, hseen] using h2
        · simpa [dedupNew, hseen] using h3
      · have hok0 := hok (pos, sc) (List.mem_cons_self _ _)
        rcases hmk : mkIgPost html pos sc with e | p
        · rw [hmk] at hok0
          simp [Except.isOk, Except.toBool] at hok0
        · obtain ⟨posts, h1, h2, h3⟩ :=
            ih (sc :: seen) (cnt + 1) (fun m hm => hok m (List.mem_cons_of_mem _ hm))
          have hk : limit - cnt = (limit - (cnt + 1)) + 1 := by omega
          have hurl : p.url = igUrl sc := mkIgPost_url html pos sc p hmk
          refine ⟨p :: posts, ?_, ?_, ?_⟩
          · simp only [igPostsGo, hlim, hseen, hmk, h1, if_false]
            rfl
          · simp only [dedupNew, hseen, if_false, List.length_cons, h2]
            omega
          · simp only [dedupNew, hseen, if_false, hk, List.take_succ_cons, List.map_cons,
              List.map_map, hurl, h3]

/-- With pairwise-distinct anchor values, first-seen dedup is the identity. -/
theorem dedupNew_eq_map (ms : List (Nat × Str)) : ∀ (seen : List Str),
    (ms.map Prod.snd).Nodup → (∀ m ∈ ms, m.2 ∉ seen) →
    dedupNew seen ms = ms.map Prod.snd := by
  induction ms with
  | nil => intro seen _ _; rfl
  | cons m rest ih =>
    intro seen hnd hdisj
    obtain ⟨pos, sc⟩ := m
    have hsc : sc ∉ seen := hdisj (pos, sc) (List.mem_cons_self _ _)
    simp only [List.map_cons, List.nodup_cons] at hnd
    simp only [dedupNew, hsc, if_false, List.map_cons]
    rw [ih (sc :: seen) hnd.2]
    intro m hm
    simp only [List.mem_cons]
    push_neg
    refine ⟨?_, hdisj m (List.mem_cons_of_mem _ hm)⟩
    intro heq
    exact hnd.1 (heq ▸ List.mem_map_of_mem Prod.snd hm)

/--
C6: for a document whose well-formed anchors parse without error, the
anchor-windowed post extractor returns exactly
`min (number of first-seen distinct shortcode values) limit` records, in
first-seen document order and deduplicated by value (a repeated shortcode
never yields a second record); with `N` pairwise-distinct anchors this is
exactly `min N limit` records.
-/
theorem c6_anchor_window_extraction (html : Str) (limit : Nat)
    (hok : ∀ m ∈ shortcodeMatches html, (mkIgPost html m.1 m.2).isOk = true) :
    (∃ posts, extractPostsFromJson html limit = .ok posts ∧
      posts.length = min (dedupNew [] (shortcodeMatches html)).length limit ∧
      posts.map (·.url) = ((dedupNew [] (shortcodeMatches html)).take limit).map igUrl) ∧
    (((shortcodeMatches html).map Prod.snd).Nodup →
      dedupNew [] (shortcodeMatches html) = (shortcodeMatches html).map Prod.snd) := by
  constructor
  · have h := igPostsGo_spec html limit (shortcodeMatches html) [] 0 hok
    simpa [extractPostsFromJson] using h
  · intro hnd
    exact dedupNew_eq_map (shortcodeMatches html) [] hnd (fun m _ => List.not_mem_nil _)

/-- C6 witness: three distinct anchors with limit 2 give exactly two records,
in document order. -/
theorem c6_witness :
    (∃ posts, extractPostsFromJson c6Html 2 = .ok posts ∧
      posts.length = min (dedupNew [] (shortcodeMatches c6Html)).length 2 ∧
      posts.map (·.url) = ((dedupNew [] (shortcodeMatches c6Html)).take 2).map igUrl) ∧
    (((shortcodeMatches c6Html).map Prod.snd).Nodup →
      dedupNew [] (shortcodeMatches c6Html) = (shortcodeMatches c6Html).map Prod.snd) :=
  c6_anchor_window_extraction c6Html 2 (by decide)

theorem strCmp_nil_le (c : Str) : strCmp [] c ≤ 0 := by
  cases c <;> simp [strCmp]

/-- `strCmp` is antisymmetric under argument swap. -/
theorem strCmp_swap (s : Str) : ∀ t, strCmp s t = -strCmp t s := by
  induction s with
  | nil => intro t; cases t <;> simp [strCmp]
  | cons x xs ih =>
    intro t
    cases t with
    | nil => simp [strCmp]
    | cons y ys =>
      simp only [strCmp]
      rcases lt_trichotomy x y with h | h | h
      · simp [h, not_lt.mpr h.le, h.ne']
      · simp [h, lt_irrefl, ih ys]
      · simp [h, not_lt.mpr h.le, h.ne']

/-- Transitivity of the non-positive side of `strCmp`. -/
theorem strCmp_le_trans : ∀ (a b c : Str), strCmp a b ≤ 0 → strCmp b c ≤ 0 → strCmp a c ≤ 0 := by
  intro a
  induction a with
  | nil => intro b c _ _; exact strCmp_nil_le c
  | cons x xs ih =>
    intro b c h1 h2
    cases b with
    | nil => simp [strCmp] at h1
    | cons y ys =>
      cases c with
      | nil => simp [strCmp] at h2
      | cons z zs =>
        simp only [strCmp] at h1 h2 ⊢
        rcases lt_trichotomy x y with hxy | hxy | hxy
        · rcases lt_trichotomy y z with hyz | hyz | hyz
          · simp [hxy.trans hyz]
          · simp [hyz ▸ hxy]
          · simp [hxy, not_lt.mpr hxy.le, hxy.ne'] at h1 ⊢
            simp [hyz, not_lt.mpr hyz.le, hyz.ne'] at h2
        · subst hxy
          rcases lt_trichotomy x z with hyz | hyz | hyz
          · simp [hyz]
          · subst hyz
            simp [lt_irrefl] at h1 h2 ⊢
            exact ih ys zs h1 h2
          · simp [hyz, not_lt.mpr hyz.le, hyz.ne'] at h2
        · simp [hxy, not_lt.mpr hxy.le, hxy.ne'] at h1

/-- The comparator is total on any two posts (tie when either is undated). -/
theorem fbDateCmp_total {a b : SocialPost} (h : ¬ fbDateCmp a b ≤ 0) : fbDateCmp b a ≤ 0 := by
  unfold fbDateCmp at h ⊢
  rcases ha : a.posted_at with _ | da <;> rcases hb : b.posted_at with _ | db <;>
    simp [ha, hb] at h ⊢
  rw [strCmp_swap]
  omega

/-- The comparator is transitive on dated posts. -/
theorem fbDateCmp_trans {a b c : SocialPost}
    (ha : a.posted_at ≠ none) (hb : b.posted_at ≠ none) (hc : c.posted_at ≠ none)
    (h1 : fbDateCmp a b ≤ 0) (h2 : fbDateCmp b c ≤ 0) : fbDateCmp a c ≤ 0 := by
  unfold fbDateCmp at h1 h2 ⊢
  rcases hpa : a.posted_at with _ | da
  · exact absurd hpa ha
  · rcases hpb : b.posted_at with _ | db
    · exact absurd hpb hb
    · rcases hpc : c.posted_at with _ | dc
      · exact absurd hpc hc
      · rw [hpa, hpb] at h1
        rw [hpb, hpc] at h2
        exact strCmp_le_trans dc db da h2 h1

/-- Inserting preserves the relative order of the existing elements. -/
theorem orderedInsert_self_sublist (r : SocialPost → SocialPost → Prop) [DecidableRel r]
    (x : SocialPost) (l : List SocialPost) :
    List.Sublist l (List.orderedInsert r x l) := by
  rw [List.orderedInsert_eq_take_drop]
  conv_lhs => rw [← List.takeWhile_append_dropWhile (p := fun b => decide ¬ r x b) (l := l)]
  exact List.Sublist.append_left (List.sublist_cons_self _ _) _

/-- The inserted element lands before every element it relates to. -/
theorem orderedInsert_pair_sublist (r : SocialPost → SocialPost → Prop) [DecidableRel r]
    (x b : SocialPost) (l : List SocialPost) (hb : b ∈ l) (hr : r x b) :
    List.Sublist [x, b] (List.orderedInsert r x l) := by
  rw [List.orderedInsert_eq_take_drop]
  have hsplit := List.takeWhile_append_dropWhile (fun y => decide ¬ r x y) l
  have hbd : b ∈ List.dropWhile (fun y => decide ¬ r x y) l := by
    rcases List.mem_append.mp (hsplit ▸ hb) with h | h
    · have := List.mem_takeWhile_imp h
      simp only [decide_eq_true_eq] at this
      exact absurd hr this
    · exact h
  have h1 : List.Sublist [x, b] (x :: List.dropWhile (fun y => decide ¬ r x y) l) :=
    List.Sublist.cons₂ x (List.singleton_sublist.mpr hbd)
  exact h1.trans (List.sublist_append_right _ _)

/-- Pairs that compare as ties keep their relative input order. -/
theorem sortPostsByDate_stable_pair (a b : SocialPost) (h0 : fbDateCmp a b = 0) :
    ∀ l : List SocialPost, List.Sublist [a, b] l →
      List.Sublist [a, b] (sortPostsByDate l) := by
  intro l
  induction l with
  | nil => intro h; exact absurd (h.length_le) (by simp)
  | cons x xs ih =>
    intro h
    cases h with
    | cons _ h' =>
      exact (ih h').trans
        (orderedInsert_self_sublist (fun a b => fbDateCmp a b ≤ 0) x (sortPostsByDate xs))
    | cons₂ _ h' =>
      have hb : b ∈ sortPostsByDate xs := by
        have hbm : b ∈ xs := (List.singleton_sublist.mp h')
        exact ((List.perm_insertionSort _ xs).mem_iff).mpr hbm
      exact orderedInsert_pair_sublist (fun a b => fbDateCmp a b ≤ 0) a b
        (sortPostsByDate xs) hb (le_of_eq h0)

/-- Inserting a dated post into a sorted all-dated list keeps it sorted. -/
theorem orderedInsert_pairwise_le (x : SocialPost) (l : List SocialPost)
    (hx : x.posted_at ≠ none) (hl : ∀ p ∈ l, p.posted_at ≠ none)
    (h : List.Pairwise (fun a b => fbDateCmp a b ≤ 0) l) :
    List.Pairwise (fun a b => fbDateCmp a b ≤ 0)
      (List.orderedInsert (fun a b => fbDateCmp a b ≤ 0) x l) := by
  induction l with
  | nil => simp
  | cons y t ih =>
    simp only [List.orderedInsert]
    split
    · next hxy =>
      refine List.pairwise_cons.mpr ⟨?_, h⟩
      intro z hz
      rcases List.mem_cons.mp hz with rfl | hzt
      · exact hxy
      · exact fbDateCmp_trans hx (hl y (List.mem_cons_self _ _))
          (hl z (List.mem_cons_of_mem _ hzt)) hxy
          ((List.pairwise_cons.mp h).1 z hzt)
    · next hxy =>
      have ht := (List.pairwise_cons.mp h).2
      have hyt := (List.pairwise_cons.mp h).1
      refine List.pairwise_cons.mpr ⟨?_, ih (fun p hp => hl p (List.mem_cons_of_mem _ hp)) ht⟩
      intro z hz
      rcases (List.mem_orderedInsert _).mp hz with rfl | hzt
      · exact fbDateCmp_total hxy
      · exact hyt z hzt

/-- On an all-dated list the ranking is sorted newest-first. -/
theorem sortPostsByDate_sorted (l : List SocialPost)
    (hl : ∀ p ∈ l, p.posted_at ≠ none) :
    List.Pairwise (fun a b => fbDateCmp a b ≤ 0) (sortPostsByDate l) := by
  induction l with
  | nil => simp [sortPostsByDate]
  | cons x t ih =>
    have hmem : ∀ p ∈ List.insertionSort (fun a b => fbDateCmp a b ≤ 0) t,
        p.posted_at ≠ none := by
      intro p hp
      exact hl p (List.mem_cons_of_mem _ (((List.perm_insertionSort _ t).mem_iff).mp hp))
    exact orderedInsert_pairwise_le x _ (hl x (List.mem_cons_self _ _)) hmem
      (ih (fun p hp => hl p (List.mem_cons_of_mem _ hp)))

/--
C7 (amended): the ranking comparator reports ties whenever either side lacks
a date, so the guarantees are: when *all* records carry dates the output is
pairwise newest-first; any pair comparing as a tie (in particular any pair in
which a record lacks a date) keeps its relative input order; and the sort is
total and length-preserving (ties and missing dates never cause an error).
When dated and undated records are mixed, two dated records are *not*
guaranteed to appear newest-first (see the counterexample).
-/
theorem c7_ranking_behaviour (l : List SocialPost) :
    ((∀ p ∈ l, p.posted_at ≠ none) →
      List.Pairwise (fun a b => fbDateCmp a b ≤ 0) (sortPostsByDate l)) ∧
    (∀ a b : SocialPost, fbDateCmp a b = 0 → List.Sublist [a, b] l →
      List.Sublist [a, b] (sortPostsByDate l)) ∧
    (sortPostsByDate l).length = l.length :=
  ⟨sortPostsByDate_sorted l,
   fun a b h0 hs => sortPostsByDate_stable_pair a b h0 l hs,
   (List.perm_insertionSort _ l).length_eq⟩

/--
C7 (counterexample): with an undated record between them, two dated records
do *not* come out newest-first: the input `[old, undated, new]` is returned
unchanged by the ranking, with the older dated record before the newer one —
refuting the claim that any two dated records appear newest-first.
-/
theorem c7_counterexample :
    sortPostsByDate [postOld, postNoDate, postNew] = [postOld, postNoDate, postNew] ∧
    postOld.posted_at = some "2024-01-01".data ∧
    postNew.posted_at = some "2024-12-31".data ∧
    strCmp "2024-01-01".data "2024-12-31".data < 0 := by decide

/-- C7 witness: the amended guarantees at concrete inputs. -/
theorem c7_witness :
    List.Pairwise (fun a b => fbDateCmp a b ≤ 0) (sortPostsByDate [postNew, postOld]) ∧
    List.Sublist [postNoDate, postNew] (sortPostsByDate [postOld, postNoDate, postNew]) :=
  ⟨(c7_ranking_behaviour [postNew, postOld]).1 (by decide),
   (c7_ranking_behaviour [postOld, postNoDate, postNew]).2.1 postNoDate postNew (by decide)
     (List.Sublist.cons postOld (List.Sublist.refl _))⟩


theorem digit_not_ws {c : Char} (h : c.isDigit = true) : isJsWs c = false := by
  have hv : 48 ≤ c.toNat ∧ c.toNat ≤ 57 := by
    simp [Char.isDigit, Char.le_def, UInt32.le_def] at h
    exact ⟨h.1, h.2⟩
  by_contra hw
  rw [Bool.not_eq_false] at hw
  simp only [isJsWs, Bool.or_eq_true, decide_eq_true_eq, Bool.and_eq_true] at hw
  rcases hw with (((((((((((((rfl | rfl) | rfl) | rfl) | rfl) | rfl) | rfl) | rfl) | ⟨h1, h2⟩) | rfl) | rfl) | rfl) | rfl) | rfl) | rfl
  all_goals first
    | (exact absurd hv (by decide))
    | (have h1' : ('\u2000' : Char).toNat ≤ c.toNat := Char.le_def.mp h1
       have he : ('\u2000' : Char).toNat = 8192 := by decide
       exact absurd hv (by omega))

theorem dropWhile_eq_self_of_false {p : Char → Bool} {s : Str}
    (h : ∀ c ∈ s, p c = false) : s.dropWhile p = s := by
  cases s with
  | nil => rfl
  | cons c cs => simp [List.dropWhile_cons, h c (List.mem_cons_self _ _)]

theorem jsTrim_eq_self {s : Str} (h : ∀ c ∈ s, isJsWs c = false) : jsTrim s = s := by
  unfold jsTrim
  rw [dropWhile_eq_self_of_false h,
    dropWhile_eq_self_of_false (fun c hc => h c (List.mem_reverse.mp hc)),
    List.reverse_reverse]

theorem stripJsWs_eq_self {s : Str} (h : ∀ c ∈ s, isJsWs c = false) : stripJsWs s = s :=
  List.filter_eq_self.mpr (fun c hc => by simp [h c hc])

theorem munchClass_stop {p : Char → Bool} {s t : Str}
    (hs : ∀ c ∈ s, p c = true) (ht : ∀ c cs, t = c :: cs → p c = false) :
    munchClass p (s ++ t) = (s, t) := by
  induction s with
  | nil =>
    cases t with
    | nil => rfl
    | cons c cs => simp [munchClass, ht c cs rfl]
  | cons c cs ih =>
    have h1 := ih (fun x hx => hs x (List.mem_cons_of_mem _ hx))
    simp [munchClass, hs c (List.mem_cons_self _ _), h1]

theorem firstMatch_head {α : Type} {step : Str → Option α} {c : Char} {rest : Str} {a : α}
    (h : step (c :: rest) = some a) : firstMatch step (c :: rest) = some a := by
  simp [firstMatch, h]

theorem hasSepThen3_cons_ne {sep c : Char} {cs : Str} (hc : c ≠ sep) :
    hasSepThen3 sep (c :: cs) = hasSepThen3 sep cs := by
  match cs with
  | [] => rfl
  | [x] => rfl
  | [x, y] => rfl
  | x :: y :: z :: r => simp [hasSepThen3, hc]

theorem hasSepThen3_not_mem {sep : Char} {s : Str} (h : sep ∉ s) :
    hasSepThen3 sep s = false := by
  induction s with
  | nil => rfl
  | cons c cs ih =>
    rw [List.mem_cons, not_or] at h
    rw [hasSepThen3_cons_ne (fun hc => h.1 hc.symm)]
    exact ih h.2

theorem hasSepThen3_split (sep : Char) (a b : Str)
    (ha : ∀ c ∈ a, c ≠ sep) (hb3 : ∀ c ∈ b.take 3, c.isDigit = true) :
    hasSepThen3 sep (a ++ sep :: b) = decide (3 ≤ b.length) := by
  induction a with
  | nil =>
    match b with
    | [] => rfl
    | [x] => rfl
    | [x, y] => rfl
    | x :: y :: z :: r =>
      simp only [List.nil_append, hasSepThen3]
      have hx := hb3 x (by simp [List.take])
      have hy := hb3 y (by simp [List.take])
      have hz := hb3 z (by simp [List.take])
      simp [hx, hy, hz]
  | cons c cs ih =>
    rw [List.cons_append, hasSepThen3_cons_ne (ha c (List.mem_cons_self _ _))]
    exact ih (fun x hx => ha x (List.mem_cons_of_mem _ hx))

theorem removeAllChar_split {sep : Char} {a b : Str}
    (ha : ∀ c ∈ a, c ≠ sep) (hb : ∀ c ∈ b, c ≠ sep) :
    removeAllChar sep (a ++ sep :: b) = a ++ b := by
  unfold removeAllChar
  rw [List.filter_append, List.filter_cons]
  rw [List.filter_eq_self.mpr (fun c hc => by simp [ha c hc]),
    List.filter_eq_self.mpr (fun c hc => by simp [hb c hc])]
  simp

theorem replaceFirstChar_not_mem {x y : Char} {s : Str} (h : x ∉ s) :
    replaceFirstChar x y s = s := by
  induction s with
  | nil => rfl
  | cons c cs ih =>
    simp only [replaceFirstChar]
    rw [if_neg (fun hc => h (List.mem_cons.mpr (Or.inl hc.symm))),
      ih (fun hm => h (List.mem_cons_of_mem _ hm))]

theorem replaceFirstChar_split {x y : Char} {a : Str} (b : Str) (h : x ∉ a) :
    replaceFirstChar x y (a ++ x :: b) = a ++ y :: b := by
  induction a with
  | nil => simp [replaceFirstChar]
  | cons c cs ih =>
    rw [List.cons_append]
    simp only [replaceFirstChar]
    rw [if_neg (fun hc => h (List.mem_cons.mpr (Or.inl hc.symm))),
      ih (fun hm => h (List.mem_cons_of_mem _ hm))]
    rfl


theorem magSuffix_not_ws {k : Char} (h : isMagSuffix k = true) : isJsWs k = false := by
  simp [isMagSuffix] at h
  rcases h with ((rfl | rfl) | rfl) | rfl <;> decide

theorem magSuffix_not_numTok {k : Char} (h : isMagSuffix k = true) : isNumTok k = false := by
  simp [isMagSuffix] at h
  rcases h with ((rfl | rfl) | rfl) | rfl <;> decide

theorem pfSign_digit {c : Char} (cs : Str) (hc : c.isDigit = true) :
    pfSign (c :: cs) = (1, c :: cs) := by
  unfold pfSign
  split
  · next r heq => injection heq with h1 _; exact absurd (h1 ▸ hc) (by decide)
  · next r heq => injection heq with h1 _; exact absurd (h1 ▸ hc) (by decide)
  · rfl

theorem parseFloatQ_digits {s : Str} (h : ∀ c ∈ s, c.isDigit = true) (hne : s ≠ []) :
    parseFloatQ s = some ((natOfDigits s : ℚ)) := by
  obtain ⟨c, cs, rfl⟩ := List.exists_cons_of_ne_nil hne
  have hc := h c (List.mem_cons_self _ _)
  have hmd : munchDigits (c :: cs) = (c :: cs, []) := by
    have := munchClass_stop (p := Char.isDigit) (s := c :: cs) (t := [])
      h (fun x xs hx => absurd hx (by simp))
    simpa [munchDigits] using this
  unfold parseFloatQ
  dsimp only
  rw [dropWhile_eq_self_of_false (fun x hx => digit_not_ws (h x hx)),
    pfSign_digit cs hc]
  dsimp only
  rw [hmd]
  dsimp only [pfFrac]
  simp [natOfDigits]

theorem parseFloatQ_digits_dot {a b : Str}
    (ha : ∀ c ∈ a, c.isDigit = true) (hb : ∀ c ∈ b, c.isDigit = true)
    (hna : a ≠ []) :
    parseFloatQ (a ++ '.' :: b) =
      some ((natOfDigits a : ℚ) + (natOfDigits b : ℚ) / 10 ^ b.length) := by
  obtain ⟨c, cs, rfl⟩ := List.exists_cons_of_ne_nil hna
  have hc := ha c (List.mem_cons_self _ _)
  have hmd : munchDigits ((c :: cs) ++ '.' :: b) = (c :: cs, '.' :: b) := by
    have := munchClass_stop (p := Char.isDigit) (s := c :: cs) (t := '.' :: b)
      ha (fun x xs hx => by
        injection hx with h1 _
        exact h1 ▸ (by decide : ('.').isDigit = false))
    simpa [munchDigits] using this
  have hmb : munchDigits b = (b, []) := by
    have := munchClass_stop (p := Char.isDigit) (s := b) (t := [])
      hb (fun x xs hx => absurd hx (by simp))
    simpa [munchDigits] using this
  have hnw : ∀ x ∈ (c :: cs) ++ '.' :: b, isJsWs x = false := by
    intro x hx
    rcases List.mem_append.mp hx with hx | hx
    · exact digit_not_ws (ha x hx)
    · rcases List.mem_cons.mp hx with rfl | hx
      · decide
      · exact digit_not_ws (hb x hx)
  unfold parseFloatQ
  dsimp only
  rw [dropWhile_eq_self_of_false hnw]
  rw [show ((c :: cs) ++ '.' :: b) = c :: (cs ++ '.' :: b) from rfl,
    pfSign_digit _ hc]
  dsimp only
  rw [show (c :: (cs ++ '.' :: b)) = ((c :: cs) ++ '.' :: b) from rfl, hmd]
  rw [show pfFrac ('.' :: b) = munchDigits b from rfl, hmb]
  simp

theorem countStep_split (a b : Str) (suf : Option Char) (sep : Char)
    (ha : ∀ c ∈ a, c.isDigit = true) (hb : ∀ c ∈ b, c.isDigit = true)
    (hna : a ≠ []) (hsepn : isNumTok sep = true)
    (hsuf : ∀ k, suf = some k → isMagSuffix k = true) :
    countStep (a ++ sep :: b ++ suf.toList) = some (a ++ sep :: b, suf) := by
  have htok : munchClass isNumTok ((a ++ sep :: b) ++ suf.toList) =
      (a ++ sep :: b, suf.toList) := by
    apply munchClass_stop
    · intro c hc
      rcases List.mem_append.mp hc with h | h
      · simp [isNumTok, ha c h]
      · rcases List.mem_cons.mp h with rfl | h
        · exact hsepn
        · simp [isNumTok, hb c h]
    · intro k ks hk
      cases suf with
      | none => exact absurd hk (by simp)
      | some k' =>
        simp [Option.toList] at hk
        obtain ⟨rfl, -⟩ := hk
        exact magSuffix_not_numTok (hsuf _ rfl)
  unfold countStep eatClassPlus
  rw [show a ++ sep :: b ++ suf.toList = (a ++ sep :: b) ++ suf.toList from by simp, htok]
  obtain ⟨a0, a', rfl⟩ := List.exists_cons_of_ne_nil hna
  cases suf with
  | none => rfl
  | some k =>
    have hkw := magSuffix_not_ws (hsuf k rfl)
    have hkm := hsuf k rfl
    simp [eatWs, hkw, hkm]

theorem c4_mult_eq (q : ℚ) (suf : Option Char)
    (hsuf : ∀ k, suf = some k → isMagSuffix k = true) :
    (if Option.map Char.toUpper suf = some 'M' then
        (if Option.map Char.toUpper suf = some 'K' then q * 1000 else q) * 1000000
      else if Option.map Char.toUpper suf = some 'K' then q * 1000 else q) =
      q * (if Option.map Char.toUpper suf = some 'K' then 1000
           else if Option.map Char.toUpper suf = some 'M' then 1000000 else 1) := by
  cases suf with
  | none => simp
  | some k =>
    have hk := hsuf k rfl
    simp only [isMagSuffix, Bool.or_eq_true, decide_eq_true_eq] at hk
    rcases hk with ((rfl | rfl) | rfl) | rfl
    · rw [show Option.map Char.toUpper (some 'K') = some 'K' from by decide]; simp
    · rw [show Option.map Char.toUpper (some 'k') = some 'K' from by decide]; simp
    · rw [show Option.map Char.toUpper (some 'M') = some 'M' from by decide]; simp
    · rw [show Option.map Char.toUpper (some 'm') = some 'M' from by decide]; simp

/--
C4 (amended): on a numeric token `a SEP b` (`a`, `b` digit runs, `SEP` a period
or comma) with an optional `K`/`k`/`M`/`m` suffix, `parseCount` treats `SEP` as
a thousands separator (removing it) exactly when it is followed by at least
three digits — not exactly three: a fourth digit still selects the
thousands-separator reading (see the counterexample) — and otherwise as a
decimal point; the suffix multiplies by 1000 (`K`) or 1000000 (`M`),
case-insensitively, and the result is rounded half-up.
-/
theorem c4_parse_count_behaviour
    (a b : Str) (suf : Option Char) (sep : Char)
    (ha : ∀ c ∈ a, c.isDigit = true) (hb : ∀ c ∈ b, c.isDigit = true)
    (hna : a ≠ [])
    (hsep : sep = '.' ∨ sep = ',')
    (hsuf : ∀ k, suf = some k → isMagSuffix k = true) :
    parseCount (a ++ sep :: b ++ suf.toList) =
      some (jsRound ((if 3 ≤ b.length
            then (natOfDigits (a ++ b) : ℚ)
            else (natOfDigits a : ℚ) + (natOfDigits b : ℚ) / 10 ^ b.length) *
          (if suf.map Char.toUpper = some 'K' then 1000
           else if suf.map Char.toUpper = some 'M' then 1000000 else 1))) := by
  have hsepd : sep.isDigit = false := by rcases hsep with rfl | rfl <;> decide
  have hsepw : isJsWs sep = false := by rcases hsep with rfl | rfl <;> decide
  have hsepn : isNumTok sep = true := by rcases hsep with rfl | rfl <;> decide
  have hane : ∀ c ∈ a, c ≠ sep := by
    intro c hc e
    have hx := ha c hc
    rw [e, hsepd] at hx
    exact Bool.noConfusion hx
  have hbne : ∀ c ∈ b, c ≠ sep := by
    intro c hc e
    have hx := hb c hc
    rw [e, hsepd] at hx
    exact Bool.noConfusion hx
  have hnw : ∀ c ∈ a ++ sep :: b ++ suf.toList, isJsWs c = false := by
    intro c hc
    rcases List.mem_append.mp hc with h | h
    · rcases List.mem_append.mp h with h | h
      · exact digit_not_ws (ha c h)
      · rcases List.mem_cons.mp h with rfl | h
        · exact hsepw
        · exact digit_not_ws (hb c h)
    · cases suf with
      | none => simp at h
      | some k =>
        simp [Option.toList] at h
        exact h ▸ magSuffix_not_ws (hsuf k rfl)
  have hclean : stripJsWs (jsTrim (a ++ sep :: b ++ suf.toList)) =
      a ++ sep :: b ++ suf.toList := by
    rw [jsTrim_eq_self hnw, stripJsWs_eq_self hnw]
  have hfm : firstMatch countStep (a ++ sep :: b ++ suf.toList) =
      some (a ++ sep :: b, suf) := by
    obtain ⟨a0, a', rfl⟩ := List.exists_cons_of_ne_nil hna
    exact firstMatch_head (countStep_split (a0 :: a') b suf sep ha hb (by simp) hsepn hsuf)
  unfold parseCount
  dsimp only
  rw [hclean, hfm]
  dsimp only
  have hadot : ∀ c ∈ a, c ≠ '.' := fun c hc e => absurd (e ▸ ha c hc) (by decide)
  have hacom : ∀ c ∈ a, c ≠ ',' := fun c hc e => absurd (e ▸ ha c hc) (by decide)
  have hbdot : ∀ c ∈ b, c ≠ '.' := fun c hc e => absurd (e ▸ hb c hc) (by decide)
  have hbcom : ∀ c ∈ b, c ≠ ',' := fun c hc e => absurd (e ▸ hb c hc) (by decide)
  have habd : ∀ c ∈ a ++ b, c.isDigit = true :=
    fun c hc => (List.mem_append.mp hc).elim (ha c) (hb c)
  have habne : a ++ b ≠ [] := fun h => hna (List.append_eq_nil.mp h).1
  have hb3 : ∀ c ∈ b.take 3, c.isDigit = true :=
    fun c hc => hb c (List.mem_of_mem_take hc)
  rcases hsep with rfl | rfl
  · -- separator is a period
    have h1 : hasSepThen3 ',' (a ++ '.' :: b) = false := by
      apply hasSepThen3_not_mem
      intro hm
      rcases List.mem_append.mp hm with h | h
      · exact hacom ',' h rfl
      · rcases List.mem_cons.mp h with h | h
        · exact absurd h (by decide)
        · exact hbcom ',' h rfl
    by_cases h3 : 3 ≤ b.length
    · have h2 : hasSepThen3 '.' (a ++ '.' :: b) = true := by
        rw [hasSepThen3_split '.' a b hadot hb3]
        simp [h3]
      rw [h1, h2]
      simp only [Bool.false_eq_true, if_false, if_true]
      rw [removeAllChar_split hadot hbdot, parseFloatQ_digits habd habne]
      dsimp only
      rw [c4_mult_eq _ suf hsuf, if_pos h3]
    · have h2 : hasSepThen3 '.' (a ++ '.' :: b) = false := by
        rw [hasSepThen3_split '.' a b hadot hb3]
        simp [h3]
      rw [h1, h2]
      simp only [Bool.false_eq_true, if_false]
      have hnc : (',' : Char) ∉ a ++ '.' :: b := by
        intro hm
        rcases List.mem_append.mp hm with h | h
        · exact hacom ',' h rfl
        · rcases List.mem_cons.mp h with h | h
          · exact absurd h (by decide)
          · exact hbcom ',' h rfl
      rw [replaceFirstChar_not_mem hnc, parseFloatQ_digits_dot ha hb hna]
      dsimp only
      rw [c4_mult_eq _ suf hsuf, if_neg h3]
  · -- separator is a comma
    by_cases h3 : 3 ≤ b.length
    · have h1 : hasSepThen3 ',' (a ++ ',' :: b) = true := by
        rw [hasSepThen3_split ',' a b hacom hb3]
        simp [h3]
      rw [h1]
      simp only [if_true]
      rw [removeAllChar_split hacom hbcom, parseFloatQ_digits habd habne]
      dsimp only
      rw [c4_mult_eq _ suf hsuf, if_pos h3]
    · have h1 : hasSepThen3 ',' (a ++ ',' :: b) = false := by
        rw [hasSepThen3_split ',' a b hacom hb3]
        simp [h3]
      have h2 : hasSepThen3 '.' (a ++ ',' :: b) = false := by
        apply hasSepThen3_not_mem
        intro hm
        rcases List.mem_append.mp hm with h | h
        · exact hadot '.' h rfl
        · rcases List.mem_cons.mp h with h | h
          · exact absurd h (by decide)
          · exact hbdot '.' h rfl
      rw [h1, h2]
      simp only [Bool.false_eq_true, if_false]
      rw [replaceFirstChar_split b (fun hm => hacom ',' hm rfl),
        parseFloatQ_digits_dot ha hb hna]
      dsimp only
      rw [c4_mult_eq _ suf hsuf, if_neg h3]

/--
C4 (counterexample): the claim reads the separator as a decimal point unless
followed by *exactly* three digits, so it predicts `"1.2345"` parses as the
decimal 1.2345 and rounds to 1; the code tests `/\.\d{3}/`, which also matches
four following digits, removes the period, and returns 12345.
-/
theorem c4_counterexample :
    parseCount "1.2345".data = some 12345 ∧
    jsRound ((1 : ℚ) + 2345 / 10 ^ 4) = 1 ∧ (12345 : ℤ) ≠ 1 :=
  ⟨by decide, by decide, by decide⟩

/-- C4 witness: the amended description at two concrete inputs. -/
theorem c4_witness :
    parseCount "1.5K".data = some 1500 ∧ parseCount "1,234".data = some 1234 := by
  constructor
  · have h := c4_parse_count_behaviour ['1'] ['5'] (some 'K') '.'
      (by decide) (by decide) (by decide) (Or.inl rfl)
      (by intro k hk; injection hk with h; subst h; decide)
    rw [show ("1.5K".data : Str) = ['1'] ++ '.' :: ['5'] ++ (some 'K').toList from rfl, h]
    decide
  · have h := c4_parse_count_behaviour ['1'] ['2', '3', '4'] none ','
      (by decide) (by decide) (by decide) (Or.inr rfl)
      (by intro k hk; cases hk)
    rw [show ("1,234".data : Str) = ['1'] ++ ',' :: ['2', '3', '4'] ++ (none : Option Char).toList
        from rfl, h]
    decide
